import Mathlib

/-!
# Clipboard agent: encryption manager, API client, sync manager, sync client

A shallow embedding of the Go packages under `apps/clipboard-agent/pkg`:

* `encryption/manager.go`  (namespace `encryption`)
* `clipboard/types.go`, `clipboard/monitor.go`, and `getClipboardText` of
  `clipboard/platform_generic.go`  (namespace `clipboard`)
* `api/client.go`  (namespace `api`)
* `config/types.go`  (namespace `config`)
* `sync/sync_manager.go`, `sync/sync_client.go`, `sync/client.go`, `sync/queue.go`
  (namespace `sync`)
* `setup/wizard.go`, the function `IsSetupRequired`  (namespace `setup`)

and of the router of `apps/proxy-service/pkg/router`  (namespace `proxy`).

Conventions.  A Go `string` is a Lean `String`; a `[]byte` is a `List Char`
(one byte is one `Char`), so `[]byte(s)` is `s.data`, `string(b)` is `String.mk b`
and `len` is the length of the list.  Go `int` and `int64` values are `Int`;
where the code computes with them beyond comparing and counting (the backoff delay
of the queue, the negated age of `CleanupOld`) the result is taken modulo `2^64`
by `wrap64`.  Times are instants, in nanoseconds since 1970.  A string may hold any
bytes; `utf8.ValidString` tells which strings are well-formed UTF-8.  A method with
a pointer receiver returns the new receiver state next to its Go result.  Everything
that comes from outside the process (random bytes, the server's answers, the
clock, the platform clipboard tool, the file system) is an explicit argument.
-/

namespace ClipboardAgent

/-- Byte slices (`[]byte`). -/
abbrev Bytes := List Char

/-! ## The Go standard library and x/crypto, by contract -/

/-- The library functions the agent calls, with the parts of their documented
contract that the proofs use.  `gcmSeal key nonce pt` is
`gcm.Seal(nil, nonce, pt, nil)` for the GCM built over `aes.NewCipher(key)`, and
`gcmOpen key nonce ct` is `gcm.Open(nil, nonce, ct, nil)` (`none` for an error). -/
structure CryptoLib where
  sha256Sum : Bytes → Bytes
  pbkdf2Key : Bytes → Bytes → Nat → Nat → Bytes
  gcmSeal : Bytes → Bytes → Bytes → Bytes
  gcmOpen : Bytes → Bytes → Bytes → Option Bytes
  b64Encode : Bytes → String
  b64Decode : String → Option Bytes
  hexEncode : Bytes → String
  sha256_length : ∀ b, (sha256Sum b).length = 32
  pbkdf2_length : ∀ p s i n, (pbkdf2Key p s i n).length = n
  seal_length : ∀ k n p, k.length = 32 → n.length = 12 →
    (gcmSeal k n p).length = p.length + 16
  open_seal : ∀ k n p, k.length = 32 → n.length = 12 →
    gcmOpen k n (gcmSeal k n p) = some p
  b64_roundtrip : ∀ b, b64Decode (b64Encode b) = some b
  b64_length : ∀ b, b.length ≤ (b64Encode b).length

/-- The call `aes.NewCipher(key)`: it fails unless the key has 16, 24 or 32 bytes.
The block it returns is determined by the key, so the key stands for it. -/
def aesNewCipher (key : Bytes) : Except String Bytes :=
  if key.length = 16 ∨ key.length = 24 ∨ key.length = 32 then .ok key
  else .error "crypto/aes: invalid key size"

/-- The call `io.ReadFull(src, buf)` with `len(buf) = n`: exactly `n` bytes or an error. -/
def readFull (src : Bytes) (n : Nat) : Except String Bytes :=
  if src.length < n then .error "unexpected EOF" else .ok (src.take n)

namespace encryption

/-! ## encryption/manager.go -/

def keySize : Nat := 32

def pbkdf2Iterations : Nat := 100000

def saltSize : Nat := 16

def nonceSize : Nat := 12

/-- The struct `EncryptionManager`; a nil `deviceKey` is the empty list. -/
structure EncryptionManager where
  deviceKey : Bytes
  deviceID : String
  userID : String
  enabled : Bool
deriving DecidableEq, Repr

/-- The struct `EncryptedContent`. -/
structure EncryptedContent where
  Algorithm : String
  Ciphertext : String
  IsEncrypted : Bool
deriving DecidableEq, Repr

def NewEncryptionManager (deviceID userID : String) : EncryptionManager :=
  { deviceKey := [], deviceID := deviceID, userID := userID, enabled := false }

/-- The key `pbkdf2.Key([]byte(pass), sha256("ap-user-salt-v2:" + userID)[:saltSize], ...)`
that both `SetupDeviceKey` and `ValidatePassphrase` compute. -/
def deriveKey (L : CryptoLib) (userID masterPassphrase : String) : Bytes :=
  let salt := L.sha256Sum ("ap-user-salt-v2:" ++ userID).data
  L.pbkdf2Key masterPassphrase.data (salt.take saltSize) pbkdf2Iterations keySize

/-- The method `SetupDeviceKey`: the manager afterwards, and the error (`none` for nil). -/
def SetupDeviceKey (L : CryptoLib) (e : EncryptionManager) (masterPassphrase : String) :
    EncryptionManager × Option String :=
  if masterPassphrase = "" then
    (e, some "master passphrase cannot be empty")
  else
    ({ e with deviceKey := deriveKey L e.userID masterPassphrase, enabled := true }, none)

def IsEnabled (e : EncryptionManager) : Bool :=
  e.enabled && decide (e.deviceKey.length = keySize)

/-- The method `EncryptContent`; `rnd` is what `rand.Reader` delivers.  The call
`cipher.NewGCM(block)` cannot fail on an AES block, so it has no error branch here. -/
def EncryptContent (L : CryptoLib) (e : EncryptionManager) (rnd : Bytes) (plaintext : String) :
    Except String EncryptedContent :=
  if !IsEnabled e then
    .ok { Algorithm := "none", Ciphertext := plaintext, IsEncrypted := false }
  else if plaintext = "" then
    .error "plaintext cannot be empty"
  else
    match aesNewCipher e.deviceKey with
    | .error err => .error ("failed to create cipher: " ++ err)
    | .ok block =>
      match readFull rnd nonceSize with
      | .error err => .error ("failed to generate nonce: " ++ err)
      | .ok nonce =>
        let ciphertext := nonce ++ L.gcmSeal block nonce plaintext.data
        let encoded := L.b64Encode ciphertext
        .ok { Algorithm := "AES-256-GCM", Ciphertext := encoded, IsEncrypted := true }

/-- The method `DecryptContent`; every error return of the source carries the
empty string, so an error here stands for `("", err)`.  As in `EncryptContent`,
`cipher.NewGCM(block)` has no error branch. -/
def DecryptContent (L : CryptoLib) (e : EncryptionManager)
    (encryptedContent : Option EncryptedContent) : Except String String :=
  match encryptedContent with
  | none => .error "encrypted content cannot be nil"
  | some enc =>
    if !enc.IsEncrypted || enc.Algorithm = "none" then
      .ok enc.Ciphertext
    else if !IsEnabled e then
      .error "encryption manager not initialized with device key"
    else if enc.Algorithm ≠ "AES-256-GCM" then
      .error ("unsupported encryption algorithm: " ++ enc.Algorithm)
    else
      match L.b64Decode enc.Ciphertext with
      | none => .error "failed to decode base64"
      | some ciphertext =>
        if ciphertext.length < nonceSize + 1 + 16 then
          .error "ciphertext too short"
        else
          match aesNewCipher e.deviceKey with
          | .error err => .error ("failed to create cipher: " ++ err)
          | .ok block =>
            let nonce := ciphertext.take nonceSize
            let encryptedData := ciphertext.drop nonceSize
            match L.gcmOpen block nonce encryptedData with
            | none => .error "failed to decrypt"
            | some plaintext => .ok (String.mk plaintext)

/-- The method `GenerateContentHash` (`fmt.Sprintf("%x", sha256.Sum256(...))`). -/
def GenerateContentHash (L : CryptoLib) (content : Option EncryptedContent) : String :=
  match content with
  | none => ""
  | some c => L.hexEncode (L.sha256Sum c.Ciphertext.data)

def DisableEncryption (e : EncryptionManager) : EncryptionManager :=
  { e with enabled := false, deviceKey := [] }

def GetAlgorithm (e : EncryptionManager) : String :=
  if IsEnabled e then "AES-256-GCM" else "none"

/-- The method `ValidatePassphrase`: the lengths are compared, then the bytes one by one. -/
def ValidatePassphrase (L : CryptoLib) (e : EncryptionManager) (passphrase : String) : Bool :=
  if !IsEnabled e then false
  else
    let testKey := deriveKey L e.userID passphrase
    if testKey.length ≠ e.deviceKey.length then false
    else (List.zip testKey e.deviceKey).all (fun p => decide (p.1 = p.2))

def ChangePassphrase (L : CryptoLib) (e : EncryptionManager) (newMasterPassphrase : String) :
    EncryptionManager × Option String :=
  if newMasterPassphrase = "" then
    (e, some "new master passphrase cannot be empty")
  else
    SetupDeviceKey L e newMasterPassphrase

end encryption

namespace config

/-! ## config/types.go -/

/-- The struct `config.ClipboardItem`; times are nanoseconds, and the map `Meta` is
the list of its entries in the order of their keys. -/
structure ClipboardItem where
  ID : String
  UserID : String
  DeviceID : String
  Seq : Int
  Type_ : String
  Mime : String
  Text : String
  ImageBase64 : String
  ContentHash : String
  SizeBytes : Int
  Meta : List (String × String)
  CreatedAt : Int
deriving DecidableEq, Repr

/-- The struct `config.RemoteClipboardMessage`. -/
structure RemoteClipboardMessage where
  Item : ClipboardItem
  DeviceID : String
deriving DecidableEq, Repr

/-- The struct `config.AgentConfig`. -/
structure AgentConfig where
  DeviceID : String
  DeviceName : String
  AccessToken : String
  WsAuthToken : String
  LastSeq : Int
  QueuePath : String
  MaxItemBytes : Int
  AllowImages : Bool
  CreatedAt : Int
  UpdatedAt : Int
deriving DecidableEq, Repr

end config

namespace clipboard

/-! ## clipboard/types.go and clipboard/monitor.go -/

/-- The struct `clipboard.Content`. -/
structure Content where
  Type_ : String
  Text : String
  ImageData : Bytes
  Format : String
deriving DecidableEq, Repr

structure ItemProcessor where
  deviceID : String
  userID : String
deriving DecidableEq, Repr

def NewItemProcessor (deviceID userID : String) : ItemProcessor :=
  { deviceID := deviceID, userID := userID }

/-- The method `calculateHash`: the hasher is fed the content type, then the content. -/
def calculateHash (L : CryptoLib) (content contentType : String) : String :=
  L.hexEncode (L.sha256Sum (contentType.data ++ content.data))

def ProcessText (L : CryptoLib) (p : ItemProcessor) (now : Int) (text : String) :
    config.ClipboardItem :=
  { ID := "", UserID := p.userID, DeviceID := p.deviceID, Seq := 0, Type_ := "text",
    Mime := "text/plain", Text := text, ImageBase64 := "",
    ContentHash := calculateHash L text "text", SizeBytes := text.length, Meta := [],
    CreatedAt := now }

def ProcessImage (L : CryptoLib) (p : ItemProcessor) (now : Int) (imageData : Bytes)
    (format : String) : config.ClipboardItem :=
  { ID := "", UserID := p.userID, DeviceID := p.deviceID, Seq := 0, Type_ := "image",
    Mime := format, Text := "", ImageBase64 := "",
    ContentHash := calculateHash L (String.mk imageData) "image",
    SizeBytes := imageData.length, Meta := [("format", format)], CreatedAt := now }

/-- Five minutes, in nanoseconds (`5 * time.Minute`). -/
def fiveMinutes : Int := 5 * 60000000000

/-- The struct `DefaultMonitor`.  The map `appliedHashes` is an association list
with at most one entry per hash; `callbacks` counts the registered callbacks. -/
structure DefaultMonitor where
  processor : ItemProcessor
  callbacks : Nat
  lastHash : String
  appliedHashes : List (String × Int)
  running : Bool
deriving DecidableEq, Repr

def NewDefaultMonitor (deviceID userID : String) : DefaultMonitor :=
  { processor := NewItemProcessor deviceID userID, callbacks := 0, lastHash := "",
    appliedHashes := [], running := false }

/-- The function `NewMonitor`, which builds the monitor with placeholder identifiers. -/
def NewMonitor : DefaultMonitor :=
  NewDefaultMonitor "default-device" "default-user"

/-- The method `MarkAsApplied`, with `now` the reading of the clock during the call:
the entry is stored, then every entry older than five minutes is deleted. -/
def MarkAsApplied (m : DefaultMonitor) (now : Int) (contentHash : String) : DefaultMonitor :=
  let stored := (contentHash, now) :: m.appliedHashes.filter (fun e => decide (e.1 ≠ contentHash))
  let cutoff := now - fiveMinutes
  { m with appliedHashes := stored.filter (fun e => !decide (e.2 < cutoff)) }

/-- The method `isHashApplied`, with `now` the reading of the clock. -/
def isHashApplied (m : DefaultMonitor) (now : Int) (contentHash : String) : Bool :=
  match m.appliedHashes.lookup contentHash with
  | none => false
  | some timestamp => decide (now - timestamp < fiveMinutes)

/-- What the outside supplies to one clipboard write: the clock reading and the
answer of the platform function (`writeTextToClipboard` or `writeImageToClipboard`),
`none` for a nil error. -/
structure WriteEnv where
  now : Int
  writeErr : Option String
deriving DecidableEq, Repr

/-- The method `WriteText`: the hash is marked first, then the platform is asked to write. -/
def WriteText (L : CryptoLib) (m : DefaultMonitor) (w : WriteEnv) (text : String) :
    DefaultMonitor × Option String :=
  let item := ProcessText L m.processor w.now text
  (MarkAsApplied m w.now item.ContentHash, w.writeErr)

def WriteImage (L : CryptoLib) (m : DefaultMonitor) (w : WriteEnv) (imageData : Bytes)
    (format : String) : DefaultMonitor × Option String :=
  let item := ProcessImage L m.processor w.now imageData format
  (MarkAsApplied m w.now item.ContentHash, w.writeErr)

def SetClipboard (L : CryptoLib) (m : DefaultMonitor) (w : WriteEnv) (content : Content) :
    DefaultMonitor × Option String :=
  if content.Type_ = "text" then WriteText L m w content.Text
  else if content.Type_ = "image" then WriteImage L m w content.ImageData content.Format
  else (m, some ("unsupported content type: " ++ content.Type_))

end clipboard

namespace api

/-! ## api/client.go -/

/-- The struct `api.ClipboardItem`; the metadata map is a list of pairs. -/
structure ClipboardItem where
  ID : String
  Seq : Int
  Type_ : String
  Mime : String
  Content : String
  ContentHash : String
  SizeBytes : Int
  IsEncrypted : Bool
  EncryptionAlgorithm : String
  Metadata : List (String × String)
  DeviceID : String
  CreatedAt : Int
deriving DecidableEq, Repr

structure PollResponse where
  Items : List ClipboardItem
  LastSeq : Int
  Count : Int
deriving DecidableEq, Repr

structure SyncRequest where
  Type_ : String
  Mime : String
  Content : String
  ContentHash : String
  SizeBytes : Int
  IsEncrypted : Bool
  EncryptionAlgorithm : String
  Metadata : List (String × String)
deriving DecidableEq, Repr

structure SyncItemResponse where
  ID : String
  Seq : Int
  Created : Bool
  DeviceID : String
  Message : String
deriving DecidableEq, Repr

/-- The struct `APIClient` (the HTTP client itself is the server argument of the calls). -/
structure APIClient where
  baseURL : String
  apiKey : String
  deviceID : String
  encryption : encryption.EncryptionManager
  lastSeq : Int
deriving DecidableEq, Repr

def NewAPIClient (baseURL apiKey deviceID : String)
    (encryptionManager : encryption.EncryptionManager) : APIClient :=
  { baseURL := baseURL, apiKey := apiKey, deviceID := deviceID,
    encryption := encryptionManager, lastSeq := 0 }

def SetLastSeq (c : APIClient) (seq : Int) : APIClient :=
  { c with lastSeq := seq }

def GetLastSeq (c : APIClient) : Int :=
  c.lastSeq

/-- The query of the GET request of `PollForUpdates`,
`/api/core/v1/clipboard/sync?since=%d&limit=50&excludeDevice=true`. -/
structure PollRequest where
  since : Int
  limit : Int
  excludeDevice : Bool
deriving DecidableEq, Repr

/-- The request `PollForUpdates` sends for a client in state `c`. -/
def pollRequest (c : APIClient) : PollRequest :=
  { since := c.lastSeq, limit := 50, excludeDevice := true }

/-- The value `syncReq` that `SyncClipboardItem` builds and posts (its lines 171 to 196). -/
def syncRequestOf (L : CryptoLib) (c : APIClient) (rnd : Bytes) (content contentType : String)
    (metadata : List (String × String)) : Except String SyncRequest :=
  match encryption.EncryptContent L c.encryption rnd content with
  | .error err => .error ("failed to encrypt content: " ++ err)
  | .ok encryptedContent =>
    let contentHash := encryption.GenerateContentHash L (some encryptedContent)
    let mime := if contentType = "" then "text/plain" else contentType
    .ok { Type_ := "text", Mime := mime, Content := encryptedContent.Ciphertext,
          ContentHash := contentHash, SizeBytes := encryptedContent.Ciphertext.length,
          IsEncrypted := encryptedContent.IsEncrypted,
          EncryptionAlgorithm := encryptedContent.Algorithm, Metadata := metadata }

/-- The method `SyncClipboardItem`; `respond` is `makeRequest` followed by
`parseResponse`, that is the server's parsed answer to the posted request or an error. -/
def SyncClipboardItem (L : CryptoLib) (c : APIClient) (rnd : Bytes)
    (respond : SyncRequest → Except String SyncItemResponse) (content contentType : String)
    (metadata : List (String × String)) : Except String SyncItemResponse :=
  match syncRequestOf L c rnd content contentType metadata with
  | .error err => .error err
  | .ok syncReq => respond syncReq

/-- The method `PollForUpdates`; `srv` is the server's parsed answer to the request. -/
def PollForUpdates (c : APIClient) (srv : PollRequest → Except String PollResponse) :
    APIClient × Except String PollResponse :=
  match srv (pollRequest c) with
  | .error err => (c, .error err)
  | .ok result =>
    if result.LastSeq > c.lastSeq then ({ c with lastSeq := result.LastSeq }, .ok result)
    else (c, .ok result)

def DecryptClipboardItem (L : CryptoLib) (c : APIClient) (item : ClipboardItem) :
    Except String String :=
  if !item.IsEncrypted then .ok item.Content
  else
    encryption.DecryptContent L c.encryption
      (some { Algorithm := item.EncryptionAlgorithm, Ciphertext := item.Content,
              IsEncrypted := item.IsEncrypted })

def GetInitialSeq (c : APIClient) (srv : PollRequest → Except String PollResponse) :
    APIClient × Except String Int :=
  match PollForUpdates c srv with
  | (c1, .error err) => (c1, .error err)
  | (c1, .ok pollResp) => (c1, .ok pollResp.LastSeq)

end api

namespace sync

/-! ## sync/sync_manager.go -/

/-- The struct `SyncManager`.  The two counters start at 0 and grow by one per item,
so their 64-bit range is never left. -/
structure SyncManager where
  apiClient : api.APIClient
  clipboardMonitor : clipboard.DefaultMonitor
  encryptionManager : encryption.EncryptionManager
  pollInterval : Int
  retryInterval : Int
  maxRetries : Int
  isRunning : Bool
  lastError : Option String
  itemsSynced : Int
  itemsReceived : Int
  lastSyncTime : Int
  lastPollTime : Int
deriving DecidableEq, Repr

/-- The struct `SyncManagerConfig`. -/
structure SyncManagerConfig where
  BaseURL : String
  APIKey : String
  DeviceID : String
  PollInterval : Int
  RetryInterval : Int
  MaxRetries : Int
deriving DecidableEq, Repr

/-- The function `NewSyncManager`; `testErr` is the answer of `TestConnection`.
Zero times are written 0. -/
def NewSyncManager (config : SyncManagerConfig)
    (encryptionManager : encryption.EncryptionManager) (testErr : Option String) :
    Except String SyncManager :=
  match testErr with
  | some err => .error ("failed to connect to API: " ++ err)
  | none =>
    .ok { apiClient := api.NewAPIClient config.BaseURL config.APIKey config.DeviceID encryptionManager,
          clipboardMonitor := clipboard.NewMonitor,
          encryptionManager := encryptionManager,
          pollInterval := if config.PollInterval = 0 then 5 * 1000000000 else config.PollInterval,
          retryInterval := if config.RetryInterval = 0 then 10 * 1000000000 else config.RetryInterval,
          maxRetries := if config.MaxRetries = 0 then 3 else config.MaxRetries,
          isRunning := false, lastError := none, itemsSynced := 0, itemsReceived := 0,
          lastSyncTime := 0, lastPollTime := 0 }

/-- The first part of `Start` (its lines 92 to 109): the running check and the
initialisation of the cursor by `GetInitialSeq` and `SetLastSeq`.  What follows in
`Start` (starting the monitor, the polling loop) does not write the cursor itself. -/
def StartInit (sm : SyncManager) (srv : api.PollRequest → Except String api.PollResponse) :
    SyncManager × Option String :=
  if sm.isRunning then (sm, some "sync manager is already running")
  else
    match api.GetInitialSeq sm.apiClient srv with
    | (c, .error _) => ({ sm with isRunning := true, apiClient := c }, none)
    | (c, .ok initialSeq) =>
      ({ sm with isRunning := true, apiClient := api.SetLastSeq c initialSeq }, none)

/-- What the outside supplies to one send attempt: the random bytes for the nonce,
the server's answer to the posted request, and the clock reading after a success. -/
structure SendEnv where
  rnd : Bytes
  respond : api.SyncRequest → Except String api.SyncItemResponse
  now : Int

/-- The retry loop of `handleLocalClipboardChange`, with `remaining` iterations left,
the next one numbered `attempt`, and `lastErr` the error of the last failed one. -/
def sendAttempts (L : CryptoLib) (sm : SyncManager) (env : Nat → SendEnv) (text : String) :
    Nat → Nat → Option String → SyncManager
  | 0, _, lastErr => { sm with lastError := lastErr }
  | remaining + 1, attempt, _ =>
    match api.SyncClipboardItem L sm.apiClient (env attempt).rnd (env attempt).respond
        text "text/plain" [] with
    | .error err => sendAttempts L sm env text remaining (attempt + 1) (some err)
    | .ok _ =>
      { sm with itemsSynced := sm.itemsSynced + 1, lastSyncTime := (env attempt).now,
                lastError := none }

/-- The method `handleLocalClipboardChange`; `env i` is what attempt number `i` meets. -/
def handleLocalClipboardChange (L : CryptoLib) (sm : SyncManager) (env : Nat → SendEnv)
    (content : clipboard.Content) : SyncManager :=
  if content.Text = "" then sm
  else sendAttempts L sm env content.Text sm.maxRetries.toNat 0 none

/-- The method `handleRemoteClipboardItem`: the manager afterwards and the returned error. -/
def handleRemoteClipboardItem (L : CryptoLib) (sm : SyncManager) (w : clipboard.WriteEnv)
    (item : api.ClipboardItem) : SyncManager × Option String :=
  match api.DecryptClipboardItem L sm.apiClient item with
  | .error err => (sm, some ("failed to decrypt content: " ++ err))
  | .ok decryptedContent =>
    let content : clipboard.Content :=
      { Type_ := item.Type_, Text := decryptedContent, ImageData := [], Format := "" }
    match clipboard.SetClipboard L sm.clipboardMonitor w content with
    | (m, some err) =>
      ({ sm with clipboardMonitor := m }, some ("failed to set local clipboard: " ++ err))
    | (m, none) =>
      ({ sm with clipboardMonitor := m, itemsReceived := sm.itemsReceived + 1 }, none)

/-- One line of the record of a poll: the item handled, the value of `GetLastSeq` at
the moment it was handled, and what `handleRemoteClipboardItem` returned for it
(`none`: the item was decrypted and written to the clipboard, the source logs
"Applied remote clipboard item"). -/
structure Handled where
  item : api.ClipboardItem
  lastSeq : Int
  err : Option String
deriving DecidableEq, Repr

/-- The loop `for _, item := range pollResp.Items` of `pollForUpdates`; the item at
position `i` of the response meets `wenv i`. -/
def handleItems (L : CryptoLib) (wenv : Nat → clipboard.WriteEnv) :
    SyncManager → Nat → List api.ClipboardItem → SyncManager × List Handled
  | sm, _, [] => (sm, [])
  | sm, i, item :: rest =>
    let r := handleRemoteClipboardItem L sm (wenv i) item
    let t := handleItems L wenv r.1 (i + 1) rest
    (t.1, { item := item, lastSeq := api.GetLastSeq sm.apiClient, err := r.2 } :: t.2)

/-- The method `pollForUpdates`: the manager afterwards and the record of the items handled. -/
def pollForUpdates (L : CryptoLib) (sm : SyncManager) (now : Int)
    (srv : api.PollRequest → Except String api.PollResponse) (wenv : Nat → clipboard.WriteEnv) :
    SyncManager × List Handled :=
  let sm1 := { sm with lastPollTime := now }
  match api.PollForUpdates sm1.apiClient srv with
  | (_, .error err) => ({ sm1 with lastError := some err }, [])
  | (c, .ok pollResp) =>
    let sm2 := { sm1 with apiClient := c, lastError := none }
    if pollResp.Items.length = 0 then (sm2, [])
    else handleItems L wenv sm2 0 pollResp.Items

/-- The items a record says were applied to the local clipboard. -/
def appliedItems (log : List Handled) : List api.ClipboardItem :=
  (log.filter (fun h => h.err.isNone)).map (fun h => h.item)

/-! ## sync/client.go -/

/-- The struct `Client`; `onItemReceived` says whether the callback is set (non-nil). -/
structure Client where
  baseURL : String
  deviceID : String
  accessToken : String
  onItemReceived : Bool
  connected : Bool
deriving DecidableEq, Repr

def NewClient (baseURL deviceID accessToken : String) : Client :=
  { baseURL := baseURL, deviceID := deviceID, accessToken := accessToken,
    onItemReceived := false, connected := false }

/-- The method `handleWebSocketMessages`: `reads` are the successive results of
`conn.ReadJSON`, and the end of the list is the cancellation of the context.
Returned are the client afterwards and the items passed to `onItemReceived`, in the
order in which the calls are started. -/
def handleWebSocketMessages (c : Client) :
    List (Except String config.RemoteClipboardMessage) → Client × List config.ClipboardItem
  | [] => ({ c with connected := false }, [])
  | .error _ :: _ => ({ c with connected := false }, [])
  | .ok message :: rest =>
    let t := handleWebSocketMessages c rest
    if message.DeviceID = c.deviceID then t
    else if c.onItemReceived then (t.1, message.Item :: t.2)
    else t

/-! ## sync/sync_client.go -/

/-- How a call ends: normally with a nil error, normally with an error, or in a
nil-pointer panic. -/
inductive Outcome where
  | ok : Outcome
  | error : String → Outcome
  | panicked : Outcome
deriving DecidableEq, Repr

/-- The struct `SyncClient`.  `config` is what `deviceManager.GetConfig()` points to
(`none` for a nil pointer); `onItemReceived` says whether the callback is set. -/
structure SyncClient where
  apiClient : Client
  config : Option config.AgentConfig
  onItemReceived : Bool
  connected : Bool
deriving DecidableEq, Repr

/-- The function `NewSyncClient`; the client callback it installs forwards to
`onItemReceived` of the sync client. -/
def NewSyncClient (apiURL : String) (agentConfig : config.AgentConfig) : SyncClient :=
  { apiClient := { NewClient apiURL agentConfig.DeviceID agentConfig.AccessToken with
                   onItemReceived := true },
    config := some agentConfig, onItemReceived := false, connected := false }

/-- The backfill loop of `Connect`: the config afterwards and the items passed to
`onItemReceived`. -/
def backfill (received : Bool) :
    config.AgentConfig → List config.ClipboardItem → config.AgentConfig × List config.ClipboardItem
  | cfg, [] => (cfg, [])
  | cfg, item :: rest =>
    let cfg1 := if item.Seq > cfg.LastSeq then { cfg with LastSeq := item.Seq } else cfg
    let t := backfill received cfg1 rest
    (t.1, if received then item :: t.2 else t.2)

/-- The method `Connect`.  `fetch since limit` is the answer of `FetchSince`, `now`
the clock reading of `UpdateConfig` (whose error is ignored: the config it saves is
the one held in memory), `dialErr` the answer of `ConnectWebSocket`.  Returned are
the client afterwards, the items passed to `onItemReceived` and how the call ended.
The callbacks that `ConnectWebSocket` starts in the background are not part of it. -/
def Connect (sc : SyncClient)
    (fetch : Int → Int → Except String (List config.ClipboardItem)) (now : Int)
    (dialErr : Option String) : SyncClient × List config.ClipboardItem × Outcome :=
  match sc.config with
  | none => (sc, [], .panicked)
  | some cfg =>
    if cfg.AccessToken = "" then (sc, [], .ok)
    else
      let filled : config.AgentConfig × List config.ClipboardItem :=
        if cfg.LastSeq > 0 then
          match fetch cfg.LastSeq 100 with
          | .error _ => (cfg, [])
          | .ok items =>
            if items.length > 0 then
              let t := backfill sc.onItemReceived cfg items
              ({ t.1 with UpdatedAt := now }, t.2)
            else (cfg, [])
        else (cfg, [])
      match dialErr with
      | some err =>
        ({ sc with config := some filled.1 }, filled.2, .error ("websocket connection failed: " ++ err))
      | none =>
        ({ sc with config := some filled.1, apiClient := { sc.apiClient with connected := true } },
          filled.2, .ok)

/-- The method `SendItem`.  `create item` is the answer of `CreateItem`: an error, or
the pointer `response.Data` (`none` when the data field is null or absent). -/
def SendItem (sc : SyncClient)
    (create : config.ClipboardItem → Except String (Option config.ClipboardItem)) (now : Int)
    (item : config.ClipboardItem) : SyncClient × Outcome :=
  match sc.config with
  | none => (sc, .panicked)
  | some cfg =>
    if cfg.AccessToken = "" then (sc, .error "no access token configured")
    else
      match create item with
      | .error err => (sc, .error err)
      | .ok none => (sc, .panicked)
      | .ok (some serverItem) =>
        if serverItem.Seq > cfg.LastSeq then
          ({ sc with config := some { cfg with LastSeq := serverItem.Seq, UpdatedAt := now } }, .ok)
        else (sc, .ok)

end sync

namespace clipboard

/-! ## clipboard/monitor.go: change detection -/

/-- The method `OnChange`: one more callback is registered. -/
def OnChange (m : DefaultMonitor) : DefaultMonitor :=
  { m with callbacks := m.callbacks + 1 }

/-- The white space of ASCII: tab, line feed, vertical tab, form feed, carriage
return and space. -/
def asciiSpace (c : Char) : Bool :=
  c.toNat = 9 || c.toNat = 10 || c.toNat = 11 || c.toNat = 12 || c.toNat = 13 || c.toNat = 32

/-- The text without its leading and trailing ASCII white space. -/
def trimAscii (s : String) : String :=
  String.mk ((s.data.dropWhile asciiSpace).reverse.dropWhile asciiSpace).reverse

/-- The function `strings.TrimSpace`, by contract: on a text of ASCII bytes it cuts
the leading and the trailing ASCII white space.  (On other texts it also cuts the
encodings of the Unicode white space.) -/
structure StringsLib where
  trimSpace : String → String
  trimSpace_ascii : ∀ s, (∀ c ∈ s.data, c.toNat < 128) → trimSpace s = trimAscii s

/-- The function `getClipboardText` of `platform_generic.go`: `output` is what the
clipboard tool prints (or the error of finding or running it), and the text returned
is the output without the white space around it.  `getCurrentClipboard` of
`platform_darwin.go` trims the output of `pbpaste` in the same way. -/
def getClipboardText (S : StringsLib) (output : Except String String) : Except String String :=
  match output with
  | .error err => .error err
  | .ok out => .ok (S.trimSpace out)

/-- The method `GetCurrent`, that is the platform function `getCurrentClipboard`:
`read` is what `getClipboardText` returns (the text of the clipboard tool after
`strings.TrimSpace`, or the error; the Windows build takes the bytes of the
clipboard up to the first zero byte instead); an empty text gives no item, any other
text gives `ProcessText` of it. -/
def GetCurrent (L : CryptoLib) (m : DefaultMonitor) (now : Int) (read : Except String String) :
    Except String (Option config.ClipboardItem) :=
  match read with
  | .error err => .error err
  | .ok text => if text = "" then .ok none else .ok (some (ProcessText L m.processor now text))

/-- The method `checkClipboardChange`, with `now` the reading of the clock.  Returned
are the monitor afterwards and the item handed to every registered callback
(`none` when the notification loop is not reached). -/
def checkClipboardChange (L : CryptoLib) (m : DefaultMonitor) (now : Int)
    (read : Except String String) : DefaultMonitor × Option config.ClipboardItem :=
  match GetCurrent L m now read with
  | .error _ => (m, none)
  | .ok none => (m, none)
  | .ok (some current) =>
    let lastHash := m.lastHash
    let isApplied := isHashApplied m now current.ContentHash
    if current.ContentHash = lastHash || isApplied then (m, none)
    else ({ m with lastHash := current.ContentHash }, some current)

/-- A run of `MarkAsApplied` calls, each with its clock reading and hash, in order. -/
def markAll (m : DefaultMonitor) : List (Int × String) → DefaultMonitor
  | [] => m
  | (now, contentHash) :: rest => markAll (MarkAsApplied m now contentHash) rest

end clipboard

/-! ## 64-bit arithmetic and time -/

/-- The value of a mathematical integer taken as an `int64` (two's complement). -/
def wrap64 (x : Int) : Int :=
  (x + 2 ^ 63) % 2 ^ 64 - 2 ^ 63

/-- The conversion `uint(x)` of an `int` on a 64-bit platform. -/
def toUint64 (x : Int) : Int :=
  x % 2 ^ 64

/-- The shift `1 << s` of the `int64` constant 1 by the unsigned count `s`:
0 from 64 bits on, the sign bit at 63. -/
def shiftOne (s : Int) : Int :=
  if s ≥ 64 then 0 else wrap64 (2 ^ s.toNat)

/-- One minute (`time.Minute`), in nanoseconds. -/
def minute : Int := 60000000000

/-- The method `Time.Sub`: the difference of two instants as a `Duration`, which
is the largest or the smallest `int64` when the difference does not fit. -/
def timeSub (t u : Int) : Int :=
  max (-(2 ^ 63)) (min (2 ^ 63 - 1) (t - u))

/-- The zero `time.Time` (January 1, year 1, 00:00 UTC), in nanoseconds since 1970. -/
def zeroTime : Int := -62135596800000000000

/-! ## UTF-8, as `unicode/utf8` and `encoding/json` treat the bytes of a string -/

namespace utf8

/-- A continuation byte, `0x80` to `0xBF`. -/
def isCont (b : Nat) : Bool :=
  decide (0x80 ≤ b ∧ b ≤ 0xBF)

/-- The width `utf8.DecodeRune` reports for a well-formed encoding at the head of
the bytes, and 0 where it answers `RuneError` with width 1: the bytes are empty, the
first byte starts no encoding, the encoding is cut off, or a later byte is out of
its range (overlong forms, surrogates and values above U+10FFFF are ill-formed). -/
def runeLen : List Nat → Nat
  | [] => 0
  | b0 :: rest =>
    if b0 < 0x80 then 1
    else if b0 < 0xC2 then 0
    else if b0 < 0xE0 then
      match rest with
      | b1 :: _ => if isCont b1 then 2 else 0
      | [] => 0
    else if b0 < 0xF0 then
      match rest with
      | b1 :: b2 :: _ =>
        if (if b0 = 0xE0 then 0xA0 else 0x80) ≤ b1 ∧ b1 ≤ (if b0 = 0xED then 0x9F else 0xBF)
            ∧ isCont b2 = true then 3
        else 0
      | _ => 0
    else if b0 < 0xF5 then
      match rest with
      | b1 :: b2 :: b3 :: _ =>
        if (if b0 = 0xF0 then 0x90 else 0x80) ≤ b1 ∧ b1 ≤ (if b0 = 0xF4 then 0x8F else 0xBF)
            ∧ isCont b2 = true ∧ isCont b3 = true then 4
        else 0
      | _ => 0
    else 0

/-- The three bytes of U+FFFD, the replacement character. -/
def replacement : Bytes :=
  [Char.ofNat 0xEF, Char.ofNat 0xBF, Char.ofNat 0xBD]

/-- Whether the bytes are well-formed UTF-8 once `skip` bytes of a running encoding
have been passed over. -/
def validFrom : Nat → Bytes → Bool
  | _, [] => true
  | skip + 1, _ :: rest => validFrom skip rest
  | 0, c :: rest =>
    match runeLen ((c :: rest).map Char.toNat) with
    | 0 => false
    | n + 1 => validFrom n rest

/-- The bytes with every byte that belongs to no well-formed encoding replaced by
U+FFFD; `skip` counts the bytes of the running encoding that are still to be copied. -/
def coerceFrom : Nat → Bytes → Bytes
  | _, [] => []
  | skip + 1, c :: rest => c :: coerceFrom skip rest
  | 0, c :: rest =>
    match runeLen ((c :: rest).map Char.toNat) with
    | 0 => replacement ++ coerceFrom 0 rest
    | n + 1 => c :: coerceFrom n rest

/-- The function `utf8.ValidString`. -/
def ValidString (s : String) : Bool :=
  validFrom 0 s.data

/-- A Go string after `encoding/json` has written it and read it back: the encoder
writes each byte for which `utf8.DecodeRune` answers `RuneError` with width 1 as
U+FFFD and every other byte as it is (escapes are undone by the decoder). -/
def jsonString (s : String) : String :=
  String.mk (coerceFrom 0 s.data)

end utf8

namespace sync

/-! ## sync/queue.go -/

/-- The struct `QueuedItem`.  `Attempts` starts at 0 and grows by one per recorded
attempt, so its increment never leaves the 64-bit range. -/
structure QueuedItem where
  Item : config.ClipboardItem
  Attempts : Int
  QueuedAt : Int
  LastTry : Int
deriving DecidableEq, Repr

/-- The struct `Queue`. -/
structure Queue where
  filePath : String
  items : List QueuedItem
deriving DecidableEq, Repr

/-- Whether every string of the item is well-formed UTF-8: the string fields and
the keys and values of `Meta`. -/
def validItem (item : config.ClipboardItem) : Bool :=
  utf8.ValidString item.ID && utf8.ValidString item.UserID && utf8.ValidString item.DeviceID
    && utf8.ValidString item.Type_ && utf8.ValidString item.Mime && utf8.ValidString item.Text
    && utf8.ValidString item.ImageBase64 && utf8.ValidString item.ContentHash
    && item.Meta.all (fun e => utf8.ValidString e.1 && utf8.ValidString e.2)

/-- The item after `encoding/json` has written it and read it back into a zero
value, its `Meta` being well-formed UTF-8: numbers and times come back as they were,
each string field as `utf8.jsonString` gives it. -/
def jsonItem (item : config.ClipboardItem) : config.ClipboardItem :=
  { item with
    ID := utf8.jsonString item.ID
    UserID := utf8.jsonString item.UserID
    DeviceID := utf8.jsonString item.DeviceID
    Type_ := utf8.jsonString item.Type_
    Mime := utf8.jsonString item.Mime
    Text := utf8.jsonString item.Text
    ImageBase64 := utf8.jsonString item.ImageBase64
    ContentHash := utf8.jsonString item.ContentHash }

/-- The entry of the queue after `encoding/json` has written it and read it back. -/
def jsonQueued (x : QueuedItem) : QueuedItem :=
  { x with Item := jsonItem x.Item }

/-- The package `encoding/json` on the type `[]QueuedItem`, by contract:
`marshal` is `json.MarshalIndent(items, "", "  ")`, and `unmarshal data old` is
`json.Unmarshal(data, &items)` for a slice `items` that holds `old`: the slice
afterwards and the returned error.  The decoder writes into the elements the slice
already has, so the result may depend on `old`, and a failing call may have changed
the slice.  The contract speaks of decoding into an empty slice only: items whose
`Meta` is well-formed UTF-8 are read back with their numbers and times unchanged
(a time is written with its nanoseconds and an offset of whole minutes, and read
back as the same instant) and their strings as `utf8.jsonString` gives them; an
encoding is never empty. -/
structure JsonLib where
  marshal : List QueuedItem → Except String Bytes
  unmarshal : Bytes → List QueuedItem → List QueuedItem × Option String
  unmarshal_marshal : ∀ items data,
    (∀ x ∈ items, x.Item.Meta.all (fun e => utf8.ValidString e.1 && utf8.ValidString e.2) = true) →
    marshal items = .ok data → unmarshal data [] = (items.map jsonQueued, none)
  marshal_nonempty : ∀ items data, marshal items = .ok data → data ≠ []

/-- The files of the store: the content of each path that exists. -/
abbrev Disk := String → Option Bytes

/-- The disk after `os.WriteFile(path, data, ...)` has succeeded. -/
def writeFile (disk : Disk) (path : String) (data : Bytes) : Disk :=
  fun p => if p = path then some data else disk p

/-- The disk after `os.Rename(src, dst)` has succeeded. -/
def renameFile (disk : Disk) (src dst : String) : Disk :=
  fun p => if p = dst then disk src else if p = src then none else disk p

/-- The errors the operating system answers the calls of one queue operation with
(`none`: the call succeeds).  A failing call is taken to leave the files as they were. -/
structure StoreEnv where
  mkdirErr : Option String
  readErr : Option String
  writeErr : Option String
  renameErr : Option String
deriving DecidableEq, Repr

def NewQueue (filePath : String) : Queue :=
  { filePath := filePath, items := [] }

/-- The method `Load`: the queue afterwards and the returned error.
`json.Unmarshal(data, &q.items)` decodes into the slice the queue holds, so the
items before the call are handed to the decoder, and `items` is what the decoder
leaves there, also when it fails. -/
def Load (J : JsonLib) (env : StoreEnv) (disk : Disk) (q : Queue) : Queue × Option String :=
  match env.mkdirErr with
  | some err => (q, some ("failed to create queue directory: " ++ err))
  | none =>
    match disk q.filePath with
    | none => ({ q with items := [] }, none)
    | some data =>
      match env.readErr with
      | some err => (q, some ("failed to read queue file: " ++ err))
      | none =>
        if data.length = 0 then ({ q with items := [] }, none)
        else
          let r := J.unmarshal data q.items
          match r.2 with
          | some err => ({ q with items := r.1 }, some ("failed to unmarshal queue: " ++ err))
          | none => ({ q with items := r.1 }, none)

/-- The method `saveUnlocked` (and `Save`, which has the same body): the disk
afterwards and the returned error. -/
def saveUnlocked (J : JsonLib) (env : StoreEnv) (disk : Disk) (q : Queue) :
    Disk × Option String :=
  match J.marshal q.items with
  | .error err => (disk, some ("failed to marshal queue: " ++ err))
  | .ok data =>
    let tempFile := q.filePath ++ ".tmp"
    match env.writeErr with
    | some err => (disk, some ("failed to write temp file: " ++ err))
    | none =>
      let disk1 := writeFile disk tempFile data
      match env.renameErr with
      | some err => (disk1, some ("failed to rename temp file: " ++ err))
      | none => (renameFile disk1 tempFile q.filePath, none)

/-- The method `Add`, with `now` the reading of the clock; the field `LastTry` is
left at the zero time. -/
def Add (J : JsonLib) (env : StoreEnv) (now : Int) (disk : Disk) (q : Queue)
    (item : config.ClipboardItem) : Queue × Disk × Option String :=
  let queuedItem : QueuedItem :=
    { Item := item, Attempts := 0, QueuedAt := now, LastTry := zeroTime }
  let q1 := { q with items := q.items ++ [queuedItem] }
  let r := saveUnlocked J env disk q1
  (q1, r.1, r.2)

/-- The delay `time.Duration(1<<uint(item.Attempts)) * time.Minute` of `GetPending`,
computed in `int64`. -/
def backoffDelay (attempts : Int) : Int :=
  wrap64 (shiftOne (toUint64 attempts) * minute)

/-- The test `GetPending` makes on one item. -/
def isPending (now maxAttempts : Int) (item : QueuedItem) : Bool :=
  if item.Attempts ≥ maxAttempts then false
  else decide (item.Attempts = 0) || decide (timeSub now item.LastTry ≥ backoffDelay item.Attempts)

/-- The method `GetPending`, with `now` the reading of the clock; it only reads the queue. -/
def GetPending (q : Queue) (now maxAttempts : Int) : List QueuedItem :=
  q.items.filter (isPending now maxAttempts)

/-- The loop of `MarkAttempted` over the items: the first item with the ID is
updated (`none` when there is none). -/
def markFirst (now : Int) (itemID : String) : List QueuedItem → Option (List QueuedItem)
  | [] => none
  | x :: rest =>
    if x.Item.ID = itemID then
      some ({ x with Attempts := x.Attempts + 1, LastTry := now } :: rest)
    else (markFirst now itemID rest).map (fun t => x :: t)

/-- The method `MarkAttempted`, with `now` the reading of the clock. -/
def MarkAttempted (J : JsonLib) (env : StoreEnv) (now : Int) (disk : Disk) (q : Queue)
    (itemID : String) : Queue × Disk × Option String :=
  match markFirst now itemID q.items with
  | none => (q, disk, some ("item not found in queue: " ++ itemID))
  | some items =>
    let q1 := { q with items := items }
    let r := saveUnlocked J env disk q1
    (q1, r.1, r.2)

/-- The loop of `Remove` over the items: the first item with the ID is cut out
(`none` when there is none). -/
def removeFirst (itemID : String) : List QueuedItem → Option (List QueuedItem)
  | [] => none
  | x :: rest =>
    if x.Item.ID = itemID then some rest
    else (removeFirst itemID rest).map (fun t => x :: t)

/-- The method `Remove`. -/
def Remove (J : JsonLib) (env : StoreEnv) (disk : Disk) (q : Queue) (itemID : String) :
    Queue × Disk × Option String :=
  match removeFirst itemID q.items with
  | none => (q, disk, some ("item not found in queue: " ++ itemID))
  | some items =>
    let q1 := { q with items := items }
    let r := saveUnlocked J env disk q1
    (q1, r.1, r.2)

def Size (q : Queue) : Int :=
  q.items.length

def Clear (J : JsonLib) (env : StoreEnv) (disk : Disk) (q : Queue) :
    Queue × Disk × Option String :=
  let q1 := { q with items := [] }
  let r := saveUnlocked J env disk q1
  (q1, r.1, r.2)

/-- The method `CleanupOld`, with `now` the reading of the clock; the negation
`-maxAge` is an `int64` negation. -/
def CleanupOld (J : JsonLib) (env : StoreEnv) (now : Int) (disk : Disk) (q : Queue)
    (maxAge : Int) : Queue × Disk × Option String :=
  let cutoff := now + wrap64 (-maxAge)
  let filtered := q.items.filter (fun item => decide (item.QueuedAt > cutoff))
  if filtered.length ≠ q.items.length then
    let q1 := { q with items := filtered }
    let r := saveUnlocked J env disk q1
    (q1, r.1, r.2)
  else (q, disk, none)

/-- The pending items in the words of the specification: the items with
`attempts < maxAttempts` that were never tried or whose last try lies at least
`2^attempts` minutes back, in queue order. -/
def pendingSpec (q : Queue) (now maxAttempts : Int) : List QueuedItem :=
  q.items.filter (fun item =>
    decide (item.Attempts < maxAttempts) &&
      (decide (item.Attempts = 0) ||
        decide (now - item.LastTry ≥ 2 ^ item.Attempts.toNat * minute)))

end sync

namespace sync

/-! ## sync/client.go: creating an item -/

/-- What the HTTP exchange of `CreateItem` yields: an error of building or sending
the request, or else the status code and the decoded body, that is the fields
`data` (`none` when null or absent) and `error` of the response, or a decoding error. -/
structure CreateAnswer where
  requestErr : Option String
  status : Int
  body : Except String (Option config.ClipboardItem × Option String)

/-- The method `CreateItem`: an error, or the pointer `response.Data`. -/
def CreateItem (answer : CreateAnswer) : Except String (Option config.ClipboardItem) :=
  match answer.requestErr with
  | some err => .error ("request failed: " ++ err)
  | none =>
    if answer.status ≠ 200 ∧ answer.status ≠ 201 then .error "server returned status"
    else
      match answer.body with
      | .error err => .error ("failed to decode response: " ++ err)
      | .ok (_, some err) => .error ("server error: " ++ err)
      | .ok (data, none) => .ok data

end sync

namespace system

/-! ## system/device.go -/

/-- The struct `DeviceInfo`. -/
structure DeviceInfo where
  DeviceID : String
  Name : String
  Platform : String
deriving DecidableEq, Repr

end system

namespace config

/-- The function `HasStoredAuth`; `loaded` is the answer of `LoadConfig`. -/
def HasStoredAuth (loaded : Except String AgentConfig) : Bool :=
  match loaded with
  | .error _ => false
  | .ok cfg => decide (cfg.AccessToken ≠ "")

end config

namespace setup

/-! ## setup/wizard.go: is setup required -/

/-- What `IsSetupRequired` finds outside the process: whether the config file
exists, what `LoadConfig` answers, the environment variable `CLIPBOARD_API_KEY`,
and what `GetDeviceInfo` answers. -/
structure SetupEnv where
  configExists : Bool
  loaded : Except String config.AgentConfig
  envApiKey : String
  deviceInfo : Except String system.DeviceInfo

/-- The function `IsSetupRequired`. -/
def IsSetupRequired (env : SetupEnv) : Bool :=
  if !env.configExists then true
  else
    let hasStoredAuth := config.HasStoredAuth env.loaded
    let hasEnvAuth := decide (env.envApiKey ≠ "")
    if !hasStoredAuth && !hasEnvAuth then true
    else
      match env.deviceInfo with
      | .error _ => true
      | .ok deviceInfo =>
        let encryptionManager :=
          encryption.NewEncryptionManager deviceInfo.DeviceID "temp-user-id"
        if !encryption.IsEnabled encryptionManager then true
        else false

end setup

namespace proxy

/-! ## proxy-service: pkg/config/types.go and pkg/router -/

/-- The struct `config.RoutingRule` of the proxy service. -/
structure RoutingRule where
  ID : String
  Domain : String
  Action : String
  Region : String
  Priority : Int
  Description : String
  CreatedAt : Int
  UpdatedAt : Int
deriving DecidableEq, Repr

/-- The struct `config.WorkerConfig`; the map of regions is an association list. -/
structure WorkerConfig where
  DefaultRegion : String
  Regions : List (String × String)
deriving DecidableEq, Repr

/-- The struct `RouteDecision`; a nil `MatchedRule` is `none`. -/
structure RouteDecision where
  Action : String
  WorkerURL : String
  Reason : String
  MatchedRule : Option RoutingRule
deriving DecidableEq, Repr

/-- The struct `RoutingStats`; the counters grow by one per request. -/
structure RoutingStats where
  TotalRequests : Int
  DirectCount : Int
  ProxyCount : Int
  BlockedCount : Int
  DomainStats : List (String × Int)
deriving DecidableEq, Repr

/-- The struct `TrafficRouter`. -/
structure TrafficRouter where
  rules : List RoutingRule
  workers : WorkerConfig
  stats : RoutingStats
deriving DecidableEq, Repr

/-- The call `sort.Slice(r.rules, less)` with `less(i, j)` being
`rules[i].Priority > rules[j].Priority`, by contract: the result holds the same
rules, and no rule stands before one of higher priority.  The order among rules of
equal priority is not fixed (the sort is not stable). -/
structure SortLib where
  sortRules : List RoutingRule → List RoutingRule
  perm : ∀ rules, (sortRules rules).Perm rules
  sorted : ∀ rules, (sortRules rules).Pairwise (fun a b => a.Priority ≥ b.Priority)

/-- The method `sortRulesByPriority`. -/
def sortRulesByPriority (S : SortLib) (r : TrafficRouter) : TrafficRouter :=
  { r with rules := S.sortRules r.rules }

def NewTrafficRouter (S : SortLib) (rules : List RoutingRule) (workers : WorkerConfig) :
    TrafficRouter :=
  sortRulesByPriority S
    { rules := rules, workers := workers,
      stats := { TotalRequests := 0, DirectCount := 0, ProxyCount := 0, BlockedCount := 0,
                 DomainStats := [] } }

def UpdateRules (S : SortLib) (r : TrafficRouter) (rules : List RoutingRule)
    (workers : WorkerConfig) : TrafficRouter :=
  sortRulesByPriority S { r with rules := rules, workers := workers }

/-- The method `matchesDomain`: an exact match, a match of the part after "*." as a
suffix of the domain, or the pattern as a suffix of the domain. -/
def matchesDomain (domain pattern : String) : Bool :=
  if domain = pattern then true
  else if "*.".data.isPrefixOf pattern.data then
    (pattern.data.drop 2).isSuffixOf domain.data
  else if pattern.data.isSuffixOf domain.data then true
  else false

/-- The method `findMatchingRule`: the first rule, in the order of `r.rules`, whose
pattern matches. -/
def findMatchingRule (r : TrafficRouter) (domain : String) : Option RoutingRule :=
  r.rules.find? (fun rule => matchesDomain domain rule.Domain)

/-- The statement `r.stats.DomainStats[domain]++`. -/
def bumpDomain (domain : String) : List (String × Int) → List (String × Int)
  | [] => [(domain, 1)]
  | (d, n) :: rest => if d = domain then (d, n + 1) :: rest else (d, n) :: bumpDomain domain rest

def updateDomainStats (r : TrafficRouter) (domain : String) : TrafficRouter :=
  { r with stats := { r.stats with DomainStats := bumpDomain domain r.stats.DomainStats } }

/-- The method `RouteDomain`: the router afterwards (its statistics) and the decision. -/
def RouteDomain (r : TrafficRouter) (domain : String) : TrafficRouter × RouteDecision :=
  let r1 := updateDomainStats
    { r with stats := { r.stats with TotalRequests := r.stats.TotalRequests + 1 } } domain
  match findMatchingRule r1 domain with
  | none =>
    ({ r1 with stats := { r1.stats with DirectCount := r1.stats.DirectCount + 1 } },
      { Action := "DIRECT", WorkerURL := "",
        Reason := "No matching rule found, using default direct connection",
        MatchedRule := none })
  | some matchedRule =>
    let decision : RouteDecision :=
      { Action := matchedRule.Action, WorkerURL := "", Reason := matchedRule.Description,
        MatchedRule := some matchedRule }
    if matchedRule.Action = "DIRECT" then
      ({ r1 with stats := { r1.stats with DirectCount := r1.stats.DirectCount + 1 } }, decision)
    else if matchedRule.Action = "PROXY" then
      let r2 := { r1 with stats := { r1.stats with ProxyCount := r1.stats.ProxyCount + 1 } }
      match r1.workers.Regions.lookup matchedRule.Region with
      | some workerURL => (r2, { decision with WorkerURL := workerURL })
      | none =>
        if r1.workers.DefaultRegion ≠ "" then
          match r1.workers.Regions.lookup r1.workers.DefaultRegion with
          | some defaultURL =>
            (r2, { decision with WorkerURL := defaultURL,
                                 Reason := decision.Reason ++ " (using default region)" })
          | none => (r2, decision)
        else (r2, decision)
    else if matchedRule.Action = "BLOCK" then
      ({ r1 with stats := { r1.stats with BlockedCount := r1.stats.BlockedCount + 1 } }, decision)
    else (r1, decision)

end proxy

/-! ## A small instance of the library contract

It is not the real algorithms: it only shows that the contract can be met and lets
the definitions run on concrete inputs. -/

/-- The 16-byte tag of the small instance. -/
def demoTag (k n : Bytes) : Bytes :=
  ((k ++ n) ++ List.replicate 16 'x').take 16

/-- The small instance of `CryptoLib`. -/
def demoLib : CryptoLib where
  sha256Sum b := (b ++ List.replicate 32 '0').take 32
  pbkdf2Key p s _ n := ((p ++ s) ++ List.replicate n '0').take n
  gcmSeal k n p := p ++ demoTag k n
  gcmOpen k n c :=
    if c.drop (c.length - 16) = demoTag k n then some (c.take (c.length - 16)) else none
  b64Encode b := String.mk b
  b64Decode s := some s.data
  hexEncode b := String.mk b
  sha256_length b := by
    simp only [List.length_take, List.length_append, List.length_replicate]
    omega
  pbkdf2_length p s i n := by
    simp only [List.length_take, List.length_append, List.length_replicate]
    omega
  seal_length k n p _ _ := by
    simp only [demoTag, List.length_take, List.length_append, List.length_replicate]
    omega
  open_seal k n p _ _ := by
    have hlen : (demoTag k n).length = 16 := by
      simp only [demoTag, List.length_take, List.length_append, List.length_replicate]
      omega
    have hsub : (p ++ demoTag k n).length - 16 = p.length := by
      rw [List.length_append, hlen]
      omega
    show (if List.drop ((p ++ demoTag k n).length - 16) (p ++ demoTag k n) = demoTag k n
        then some (List.take ((p ++ demoTag k n).length - 16) (p ++ demoTag k n)) else none)
      = some p
    rw [hsub, List.drop_left, List.take_left]
    simp
  b64_roundtrip b := rfl
  b64_length b := by simp [String.length]

/-! ## Concrete inputs -/

/-- A manager for device "dev-local" of user "u1" with the key of passphrase "x". -/
def exEncryption : encryption.EncryptionManager :=
  (encryption.SetupDeviceKey demoLib (encryption.NewEncryptionManager "dev-local" "u1") "x").1

/-- A sync manager as `NewSyncManager` builds it for device "dev-local". -/
def exManager : sync.SyncManager :=
  { apiClient := api.NewAPIClient "http://server" "key" "dev-local" exEncryption,
    clipboardMonitor := clipboard.NewMonitor,
    encryptionManager := exEncryption,
    pollInterval := 5 * 1000000000, retryInterval := 10 * 1000000000, maxRetries := 3,
    isRunning := false, lastError := none, itemsSynced := 0, itemsReceived := 0,
    lastSyncTime := 0, lastPollTime := 0 }

/-- The same manager with its cursor at `seq`, as earlier polls leave it. -/
def exManagerAt (seq : Int) : sync.SyncManager :=
  { exManager with apiClient := api.SetLastSeq exManager.apiClient seq }

/-- An unencrypted text item with the given seq, device of origin and text. -/
def exItem (seq : Int) (deviceID text : String) : api.ClipboardItem :=
  { ID := "item", Seq := seq, Type_ := "text", Mime := "text/plain", Content := text,
    ContentHash := "", SizeBytes := text.length, IsEncrypted := false,
    EncryptionAlgorithm := "none", Metadata := [], DeviceID := deviceID, CreatedAt := 0 }

/-- A clipboard write that the platform accepts. -/
def okWrite : clipboard.WriteEnv :=
  { now := 0, writeErr := none }

/-- A send attempt that meets a network failure. -/
def failingSend : sync.SendEnv :=
  { rnd := "0123456789ab".data, respond := fun _ => .error "request failed", now := 0 }

/-- A text content as the change callback of `Start` builds it. -/
def exContent (text : String) : clipboard.Content :=
  { Type_ := "text", Text := text, ImageData := [], Format := "" }

/-- A poll answer that holds one unencrypted text item. -/
def exPoll (seq : Int) (deviceID text : String) (lastSeq : Int) :
    api.PollRequest → Except String api.PollResponse :=
  fun _ => .ok { Items := [exItem seq deviceID text], LastSeq := lastSeq, Count := 1 }

/-- A server that honours `since`: it answers with the one item that follows it. -/
def exHonestServer : api.PollRequest → Except String api.PollResponse :=
  fun req => .ok { Items := [exItem (req.since + 1) "dev-other" "hi"],
                   LastSeq := req.since + 1, Count := 1 }

/-- A text item as the items endpoint returns it. -/
def exRemoteItem (seq : Int) (deviceID text : String) : config.ClipboardItem :=
  { ID := "item", UserID := "u1", DeviceID := deviceID, Seq := seq, Type_ := "text",
    Mime := "text/plain", Text := text, ImageBase64 := "", ContentHash := "",
    SizeBytes := text.length, Meta := [], CreatedAt := 0 }

/-- An items endpoint that honours `since`. -/
def exHonestFetch : Int → Int → Except String (List config.ClipboardItem) :=
  fun since _ => .ok [exRemoteItem (since + 1) "dev-other" "hi"]

/-- A stored configuration with an access token and the cursor at 5. -/
def exConfig : config.AgentConfig :=
  { DeviceID := "dev-local", DeviceName := "laptop", AccessToken := "token",
    WsAuthToken := "", LastSeq := 5, QueuePath := "clipboard-queue.json",
    MaxItemBytes := 10 * 1024 * 1024, AllowImages := true, CreatedAt := 0, UpdatedAt := 0 }

/-- A sync client for `exConfig` whose item callback is set. -/
def exSyncClient : sync.SyncClient :=
  { sync.NewSyncClient "http://server" exConfig with onItemReceived := true }

/-- A small instance of `JsonLib`: it encodes the queues of a given table, each by
its place in the table, and refuses every other queue; decoding leaves the slice as
it was when it fails. -/
def demoJson (table : List (List sync.QueuedItem)) : sync.JsonLib where
  marshal items :=
    if items ∈ table then
      .ok (List.replicate (@List.indexOf _ instBEqOfDecidableEq items table + 1) '#')
    else .error "json: unsupported value"
  unmarshal data old :=
    if data.length = 0 then (old, some "unexpected end of JSON input")
    else
      match table.get? (data.length - 1) with
      | some items => (items.map sync.jsonQueued, none)
      | none => (old, some "invalid character")
  unmarshal_marshal items data _ h := by
    by_cases hmem : items ∈ table
    · simp only [hmem, if_true, Except.ok.injEq] at h
      subst h
      simp only [List.length_replicate, Nat.add_sub_cancel, Nat.succ_ne_zero, if_false,
        List.get?_eq_getElem?, List.getElem?_indexOf hmem]
    · simp [hmem] at h
  marshal_nonempty items data h := by
    by_cases hmem : items ∈ table
    · simp only [hmem, if_true, Except.ok.injEq] at h
      subst h
      simp [List.replicate_succ]
    · simp [hmem] at h

/-- A small instance of `StringsLib`: it cuts the ASCII white space only. -/
def demoStrings : clipboard.StringsLib where
  trimSpace := clipboard.trimAscii
  trimSpace_ascii _ _ := rfl

/-- An operating system that answers every call without an error. -/
def noFault : sync.StoreEnv :=
  { mkdirErr := none, readErr := none, writeErr := none, renameErr := none }

/-- A disk without files. -/
def emptyDisk : sync.Disk :=
  fun _ => none

/-- A locally detected text item, as `ProcessText` builds it: it has no ID yet. -/
def exLocalItem (text : String) : config.ClipboardItem :=
  clipboard.ProcessText demoLib (clipboard.NewItemProcessor "dev-local" "u1") 0 text

/-- A queued local item with the given text, attempts and time of the last try. -/
def exQueued (text : String) (attempts lastTry : Int) : sync.QueuedItem :=
  { Item := exLocalItem text, Attempts := attempts, QueuedAt := 0, LastTry := lastTry }

/-- A queue on "queue.json" with the given items. -/
def exQueue (items : List sync.QueuedItem) : sync.Queue :=
  { filePath := "queue.json", items := items }

/-- The codec that knows the queue holding "hello", queued at time 7. -/
def exJson : sync.JsonLib :=
  demoJson [[{ Item := exLocalItem "hello", Attempts := 0, QueuedAt := 7, LastTry := zeroTime }]]

/-- A locally detected text that is the single byte `0xFF`, which is not UTF-8, with
its SHA-256 content hash. -/
def exRawItem : config.ClipboardItem :=
  { ID := "", UserID := "u1", DeviceID := "dev-local", Seq := 0, Type_ := "text",
    Mime := "text/plain", Text := "\xff", ImageBase64 := "",
    ContentHash := "7f1d16ff69bf49974d50778da81e19b6319d7510bc37b6538b34025ece9d653b",
    SizeBytes := 1, Meta := [], CreatedAt := 0 }

/-- The codec that knows the queue holding `exRawItem`, queued at time 7. -/
def exJsonRaw : sync.JsonLib :=
  demoJson [[{ Item := exRawItem, Attempts := 0, QueuedAt := 7, LastTry := zeroTime }]]

/-- The codec that knows the queues holding "b", before and after one attempt at time 9. -/
def exJsonB : sync.JsonLib :=
  demoJson [[exQueued "b" 0 zeroTime],
            [{ exQueued "b" 0 zeroTime with Attempts := 1, LastTry := 9 }]]

/-- An encrypted item whose content is not a sealed envelope. -/
def exBrokenItem (seq : Int) : api.ClipboardItem :=
  { exItem seq "dev-other" "garbage" with IsEncrypted := true,
                                          EncryptionAlgorithm := "AES-256-GCM" }

/-- A small instance of `SortLib`: insertion sort by falling priority. -/
def demoSort : proxy.SortLib where
  sortRules rules := rules.insertionSort (fun a b => a.Priority ≥ b.Priority)
  perm rules := List.perm_insertionSort _ rules
  sorted rules :=
    @List.sorted_insertionSort _ (fun a b : proxy.RoutingRule => a.Priority ≥ b.Priority) _
      ⟨fun a b => le_total b.Priority a.Priority⟩
      ⟨fun _ _ _ hab hbc => le_trans hbc hab⟩ rules

/-- A routing rule with the given pattern, action and priority. -/
def exRule (domain action : String) (priority : Int) : proxy.RoutingRule :=
  { ID := domain, Domain := domain, Action := action, Region := "us-east",
    Priority := priority, Description := "rule for " ++ domain, CreatedAt := 0,
    UpdatedAt := 0 }

/-- The workers of the default configuration, in part. -/
def exWorkers : proxy.WorkerConfig :=
  { DefaultRegion := "us-east", Regions := [("us-east", "us-east.family-proxy.workers.dev")] }

/-- A 200 response of the items endpoint whose data field is null. -/
def exNullData : sync.CreateAnswer :=
  { requestErr := none, status := 200, body := .ok (none, none) }

/-! ## Theorems: encryption -/

namespace encryption

theorem deriveKey_length (L : CryptoLib) (userID pass : String) :
    (deriveKey L userID pass).length = keySize := by
  unfold deriveKey
  exact L.pbkdf2_length _ _ _ _

theorem SetupDeviceKey_ok (L : CryptoLib) (e0 e : EncryptionManager) (pass : String)
    (h : SetupDeviceKey L e0 pass = (e, none)) :
    pass ≠ "" ∧ e = { e0 with deviceKey := deriveKey L e0.userID pass, enabled := true } := by
  unfold SetupDeviceKey at h
  by_cases hp : pass = ""
  · simp [hp] at h
  · simp only [hp, if_false, Prod.mk.injEq, and_true] at h
    exact ⟨hp, h.symm⟩

theorem IsEnabled_of_setup (L : CryptoLib) (e0 e : EncryptionManager) (pass : String)
    (h : SetupDeviceKey L e0 pass = (e, none)) : IsEnabled e = true := by
  obtain ⟨_, rfl⟩ := SetupDeviceKey_ok L e0 e pass h
  simp [IsEnabled, deriveKey_length]

theorem IsEnabled_iff (e : EncryptionManager) :
    IsEnabled e = true ↔ e.enabled = true ∧ e.deviceKey.length = 32 := by
  simp [IsEnabled, keySize]

theorem aesNewCipher_of_length (key : Bytes) (h : key.length = 32) :
    aesNewCipher key = .ok key := by
  simp [aesNewCipher, h]

theorem readFull_ok (rnd : Bytes) (n : Nat) (h : n ≤ rnd.length) :
    readFull rnd n = .ok (rnd.take n) ∧ (rnd.take n).length = n := by
  constructor
  · simp [readFull, Nat.not_lt.mpr h]
  · simp [List.length_take, h]

/-- What `EncryptContent` returns on an enabled manager for a non-empty plaintext
when the random source delivers a nonce. -/
theorem EncryptContent_enabled (L : CryptoLib) (e : EncryptionManager) (rnd : Bytes)
    (p : String) (hen : IsEnabled e = true) (hp : p ≠ "") (hrnd : nonceSize ≤ rnd.length) :
    EncryptContent L e rnd p =
      .ok { Algorithm := "AES-256-GCM",
            Ciphertext := L.b64Encode
              (rnd.take nonceSize ++ L.gcmSeal e.deviceKey (rnd.take nonceSize) p.data),
            IsEncrypted := true } := by
  have hk := ((IsEnabled_iff e).mp hen).2
  unfold EncryptContent
  simp only [hen, Bool.not_true, Bool.false_eq_true, if_false, hp,
    aesNewCipher_of_length _ hk, (readFull_ok rnd nonceSize hrnd).1]

/-- An envelope sealed under a 32-byte key opens under every enabled manager that
holds the same key. -/
theorem DecryptContent_sealed (L : CryptoLib) (e : EncryptionManager) (key nonce : Bytes)
    (p : String) (hen : IsEnabled e = true) (hkey : e.deviceKey = key)
    (hn : nonce.length = nonceSize) (hp : p ≠ "") :
    DecryptContent L e
      (some { Algorithm := "AES-256-GCM",
              Ciphertext := L.b64Encode (nonce ++ L.gcmSeal key nonce p.data),
              IsEncrypted := true }) = .ok p := by
  subst hkey
  have hk := ((IsEnabled_iff e).mp hen).2
  have hn12 : nonce.length = 12 := hn
  have hpl : 0 < p.data.length := by
    rcases p with ⟨d⟩
    cases d with
    | nil => exact absurd rfl hp
    | cons a t => simp
  have hlen : ¬ (nonce ++ L.gcmSeal e.deviceKey nonce p.data).length < nonceSize + 1 + 16 := by
    rw [List.length_append, L.seal_length _ _ _ hk hn12, hn12]
    simp only [nonceSize]
    omega
  have htake : (nonce ++ L.gcmSeal e.deviceKey nonce p.data).take nonceSize = nonce := by
    rw [← hn, List.take_left]
  have hdrop : (nonce ++ L.gcmSeal e.deviceKey nonce p.data).drop nonceSize
      = L.gcmSeal e.deviceKey nonce p.data := by
    rw [← hn, List.drop_left]
  have halg : ("AES-256-GCM" : String) ≠ "none" := by decide
  unfold DecryptContent
  simp only [Bool.not_true, Bool.false_or, decide_eq_true_eq, halg, if_false, hen,
    Bool.false_eq_true, ne_eq, not_true_eq_false, L.b64_roundtrip, hlen,
    aesNewCipher_of_length _ hk, htake, hdrop, L.open_seal _ _ _ hk hn12]

/-- When `gcm.Open` rejects, `DecryptContent` returns an error and no plaintext. -/
theorem DecryptContent_open_rejects (L : CryptoLib) (e : EncryptionManager)
    (enc : EncryptedContent) (ciphertext : Bytes)
    (hen : IsEnabled e = true) (henc : enc.IsEncrypted = true)
    (halg : enc.Algorithm = "AES-256-GCM")
    (hdec : L.b64Decode enc.Ciphertext = some ciphertext)
    (hopen : L.gcmOpen e.deviceKey (ciphertext.take nonceSize) (ciphertext.drop nonceSize)
      = none) :
    ∃ err, DecryptContent L e (some enc) = .error err := by
  have hk := ((IsEnabled_iff e).mp hen).2
  have hnone : ("AES-256-GCM" : String) ≠ "none" := by decide
  unfold DecryptContent
  simp only [henc, halg, Bool.not_true, Bool.false_or, decide_eq_true_eq, hnone, if_false,
    hen, Bool.false_eq_true, ne_eq, not_true_eq_false, hdec, aesNewCipher_of_length _ hk,
    hopen]
  split <;> exact ⟨_, rfl⟩

/-- C1: on a manager on which `SetupDeviceKey` has succeeded, for every non-empty
plaintext `p` and whatever nonce the random source delivers, `EncryptContent p`
returns an envelope and `DecryptContent` of that envelope returns `p` with no error. -/
theorem decrypt_encrypt_roundtrip (L : CryptoLib) (e0 e : EncryptionManager)
    (pass p : String) (rnd : Bytes)
    (hsetup : SetupDeviceKey L e0 pass = (e, none)) (hp : p ≠ "")
    (hrnd : nonceSize ≤ rnd.length) :
    ∃ env, EncryptContent L e rnd p = .ok env ∧ DecryptContent L e (some env) = .ok p := by
  have hen := IsEnabled_of_setup L e0 e pass hsetup
  refine ⟨_, EncryptContent_enabled L e rnd p hen hp hrnd, ?_⟩
  exact DecryptContent_sealed L e e.deviceKey _ p hen rfl (readFull_ok rnd nonceSize hrnd).2 hp

theorem decrypt_encrypt_roundtrip_witness :
    SetupDeviceKey demoLib (NewEncryptionManager "device-1" "u1") "x"
        = ((SetupDeviceKey demoLib (NewEncryptionManager "device-1" "u1") "x").1, none)
      ∧ ("hello" : String) ≠ "" ∧ nonceSize ≤ "0123456789ab".data.length
      ∧ ∃ env,
          EncryptContent demoLib (SetupDeviceKey demoLib (NewEncryptionManager "device-1" "u1") "x").1
            "0123456789ab".data "hello" = .ok env
          ∧ DecryptContent demoLib
              (SetupDeviceKey demoLib (NewEncryptionManager "device-1" "u1") "x").1 (some env)
            = .ok "hello" :=
  ⟨by decide, by decide, by decide,
    decrypt_encrypt_roundtrip demoLib (NewEncryptionManager "device-1" "u1") _ "x" "hello"
      "0123456789ab".data (by decide) (by decide) (by decide)⟩

/-- C2: for every non-empty passphrase and every userID, two managers created with
that userID and any two deviceIDs both succeed in `SetupDeviceKey` and then hold the
same device key, which has 32 bytes and is the key derived from the passphrase and
the userID alone. -/
theorem same_user_same_device_key (L : CryptoLib) (userID d1 d2 pass : String)
    (hpass : pass ≠ "") :
    (SetupDeviceKey L (NewEncryptionManager d1 userID) pass).2 = none
      ∧ (SetupDeviceKey L (NewEncryptionManager d2 userID) pass).2 = none
      ∧ (SetupDeviceKey L (NewEncryptionManager d1 userID) pass).1.deviceKey
          = (SetupDeviceKey L (NewEncryptionManager d2 userID) pass).1.deviceKey
      ∧ (SetupDeviceKey L (NewEncryptionManager d1 userID) pass).1.deviceKey
          = deriveKey L userID pass
      ∧ (SetupDeviceKey L (NewEncryptionManager d1 userID) pass).1.deviceKey.length = 32 := by
  simp only [SetupDeviceKey, hpass, if_false, NewEncryptionManager, true_and]
  exact deriveKey_length L userID pass

theorem same_user_same_device_key_witness :
    ("same-passphrase" : String) ≠ ""
      ∧ (SetupDeviceKey demoLib (NewEncryptionManager "device-1" "user-123") "same-passphrase").1.deviceKey
          = (SetupDeviceKey demoLib (NewEncryptionManager "device-2" "user-123") "same-passphrase").1.deviceKey :=
  ⟨by decide,
    (same_user_same_device_key demoLib "user-123" "device-1" "device-2" "same-passphrase"
      (by decide)).2.2.1⟩

/-- C3: when managers A and B are created with the same userID (and any deviceIDs)
and set up with the same non-empty passphrase, then for every non-empty plaintext `p`
A's `EncryptContent p` returns an envelope and B's `DecryptContent` of it returns `p`
with no error. -/
theorem cross_device_decrypt (L : CryptoLib) (userID dA dB pass p : String) (rnd : Bytes)
    (hpass : pass ≠ "") (hp : p ≠ "") (hrnd : nonceSize ≤ rnd.length) :
    (SetupDeviceKey L (NewEncryptionManager dA userID) pass).2 = none
      ∧ (SetupDeviceKey L (NewEncryptionManager dB userID) pass).2 = none
      ∧ ∃ env,
          EncryptContent L (SetupDeviceKey L (NewEncryptionManager dA userID) pass).1 rnd p
            = .ok env
          ∧ DecryptContent L (SetupDeviceKey L (NewEncryptionManager dB userID) pass).1
              (some env) = .ok p := by
  have hA : SetupDeviceKey L (NewEncryptionManager dA userID) pass
      = ((SetupDeviceKey L (NewEncryptionManager dA userID) pass).1, none) := by
    simp [SetupDeviceKey, hpass]
  have hB : SetupDeviceKey L (NewEncryptionManager dB userID) pass
      = ((SetupDeviceKey L (NewEncryptionManager dB userID) pass).1, none) := by
    simp [SetupDeviceKey, hpass]
  have henA := IsEnabled_of_setup L _ _ pass hA
  have henB := IsEnabled_of_setup L _ _ pass hB
  have hkey : (SetupDeviceKey L (NewEncryptionManager dB userID) pass).1.deviceKey
      = (SetupDeviceKey L (NewEncryptionManager dA userID) pass).1.deviceKey := by
    simp [SetupDeviceKey, hpass, NewEncryptionManager]
  refine ⟨by rw [hA], by rw [hB], _, EncryptContent_enabled L _ rnd p henA hp hrnd, ?_⟩
  exact DecryptContent_sealed L _ _ _ p henB hkey (readFull_ok rnd nonceSize hrnd).2 hp

theorem cross_device_decrypt_witness :
    ("x" : String) ≠ "" ∧ ("hello" : String) ≠ "" ∧ nonceSize ≤ "nonce-nonce-".data.length
      ∧ ∃ env,
          EncryptContent demoLib (SetupDeviceKey demoLib (NewEncryptionManager "A" "u1") "x").1
            "nonce-nonce-".data "hello" = .ok env
          ∧ DecryptContent demoLib (SetupDeviceKey demoLib (NewEncryptionManager "B" "u1") "x").1
              (some env) = .ok "hello" :=
  ⟨by decide, by decide, by decide,
    (cross_device_decrypt demoLib "u1" "A" "B" "x" "hello" "nonce-nonce-".data
      (by decide) (by decide) (by decide)).2.2⟩

end encryption

/-! ## Theorems: the API client -/

namespace api

/-- The request built on an enabled manager. -/
theorem syncRequestOf_enabled (L : CryptoLib) (c : APIClient) (rnd : Bytes)
    (text contentType : String) (metadata : List (String × String))
    (hen : encryption.IsEnabled c.encryption = true) (htext : text ≠ "")
    (hrnd : encryption.nonceSize ≤ rnd.length) :
    syncRequestOf L c rnd text contentType metadata =
      .ok { Type_ := "text", Mime := if contentType = "" then "text/plain" else contentType,
            Content := L.b64Encode (rnd.take encryption.nonceSize ++
              L.gcmSeal c.encryption.deviceKey (rnd.take encryption.nonceSize) text.data),
            ContentHash := encryption.GenerateContentHash L
              (some { Algorithm := "AES-256-GCM",
                      Ciphertext := L.b64Encode (rnd.take encryption.nonceSize ++
                        L.gcmSeal c.encryption.deviceKey (rnd.take encryption.nonceSize)
                          text.data),
                      IsEncrypted := true }),
            SizeBytes := (L.b64Encode (rnd.take encryption.nonceSize ++
              L.gcmSeal c.encryption.deviceKey (rnd.take encryption.nonceSize)
                text.data)).length,
            IsEncrypted := true, EncryptionAlgorithm := "AES-256-GCM",
            Metadata := metadata } := by
  unfold syncRequestOf
  rw [encryption.EncryptContent_enabled L c.encryption rnd text hen htext hrnd]

/-- The request built on a manager that is not enabled. -/
theorem syncRequestOf_disabled (L : CryptoLib) (c : APIClient) (rnd : Bytes)
    (text contentType : String) (metadata : List (String × String))
    (hen : encryption.IsEnabled c.encryption = false) :
    syncRequestOf L c rnd text contentType metadata =
      .ok { Type_ := "text", Mime := if contentType = "" then "text/plain" else contentType,
            Content := text,
            ContentHash := encryption.GenerateContentHash L
              (some { Algorithm := "none", Ciphertext := text, IsEncrypted := false }),
            SizeBytes := text.length, IsEncrypted := false, EncryptionAlgorithm := "none",
            Metadata := metadata } := by
  unfold syncRequestOf encryption.EncryptContent
  simp only [hen, Bool.not_false, if_true]

/-- C9, as stated, fails: on a manager with no key the request carries the plaintext,
with IsEncrypted false. -/
theorem plaintext_sent_without_key :
    ∃ req, syncRequestOf demoLib
        (NewAPIClient "http://server" "key" "dev-local"
          (encryption.NewEncryptionManager "dev-local" "u1"))
        "0123456789ab".data "secret" "text/plain" [] = .ok req
      ∧ req.Content = "secret" ∧ req.IsEncrypted = false :=
  ⟨_, rfl, rfl, rfl⟩

/-- C9, amended: for every non-empty clipboard text, when the manager is enabled and
the random source delivers a nonce, the request that `SyncClipboardItem` posts has as
Content the base64 of the nonce followed by the AES-256-GCM sealing of the text,
which differs from the plaintext, with IsEncrypted true and algorithm "AES-256-GCM";
when the manager is not enabled the request carries the plaintext itself, with
IsEncrypted false and algorithm "none". -/
theorem sync_request_content (L : CryptoLib) (c : APIClient) (rnd : Bytes)
    (text contentType : String) (metadata : List (String × String))
    (htext : text ≠ "") (hrnd : encryption.nonceSize ≤ rnd.length) :
    (encryption.IsEnabled c.encryption = true →
        ∃ req, syncRequestOf L c rnd text contentType metadata = .ok req
          ∧ req.Content = L.b64Encode (rnd.take encryption.nonceSize ++
              L.gcmSeal c.encryption.deviceKey (rnd.take encryption.nonceSize) text.data)
          ∧ req.Content ≠ text ∧ req.IsEncrypted = true
          ∧ req.EncryptionAlgorithm = "AES-256-GCM")
      ∧ (encryption.IsEnabled c.encryption = false →
        ∃ req, syncRequestOf L c rnd text contentType metadata = .ok req
          ∧ req.Content = text ∧ req.IsEncrypted = false
          ∧ req.EncryptionAlgorithm = "none") := by
  constructor
  · intro hen
    have hk := ((encryption.IsEnabled_iff c.encryption).mp hen).2
    have hn := (encryption.readFull_ok rnd encryption.nonceSize hrnd).2
    have hreq := syncRequestOf_enabled L c rnd text contentType metadata hen htext hrnd
    refine ⟨_, hreq, rfl, ?_, rfl, rfl⟩
    intro heq
    have hlen := L.b64_length (rnd.take encryption.nonceSize ++
      L.gcmSeal c.encryption.deviceKey (rnd.take encryption.nonceSize) text.data)
    have hn12 : (rnd.take encryption.nonceSize).length = 12 := hn
    simp only [] at heq
    rw [heq, List.length_append, L.seal_length _ _ _ hk hn12] at hlen
    simp only [String.length] at hlen
    omega
  · intro hen
    exact ⟨_, syncRequestOf_disabled L c rnd text contentType metadata hen, rfl, rfl, rfl⟩

theorem sync_request_content_witness :
    ("hello" : String) ≠ "" ∧ encryption.nonceSize ≤ "0123456789ab".data.length
      ∧ encryption.IsEnabled exManager.apiClient.encryption = true
      ∧ ∃ req, syncRequestOf demoLib exManager.apiClient "0123456789ab".data "hello"
            "text/plain" [] = .ok req
          ∧ req.Content ≠ "hello" ∧ req.IsEncrypted = true :=
  ⟨by decide, by decide, by decide,
    match (sync_request_content demoLib exManager.apiClient "0123456789ab".data "hello"
      "text/plain" [] (by decide) (by decide)).1 (by decide) with
    | ⟨req, h1, _, h3, h4, _⟩ => ⟨req, h1, h3, h4⟩⟩

end api

/-! ## Theorems: the sync manager and the sync client -/

namespace api

theorem PollForUpdates_ok (c : APIClient) (srv : PollRequest → Except String PollResponse)
    (resp : PollResponse) (h : srv (pollRequest c) = .ok resp) :
    PollForUpdates c srv = ({ c with lastSeq := max c.lastSeq resp.LastSeq }, .ok resp) := by
  unfold PollForUpdates
  rw [h]
  by_cases hgt : resp.LastSeq > c.lastSeq
  · have hmax : max c.lastSeq resp.LastSeq = resp.LastSeq := max_eq_right (le_of_lt hgt)
    simp only [hgt, if_true, hmax]
  · have hmax : max c.lastSeq resp.LastSeq = c.lastSeq := max_eq_left (not_lt.mp hgt)
    simp only [hgt, if_false, hmax]

theorem PollForUpdates_error (c : APIClient) (srv : PollRequest → Except String PollResponse)
    (err : String) (h : srv (pollRequest c) = .error err) :
    PollForUpdates c srv = (c, .error err) := by
  unfold PollForUpdates
  rw [h]

end api

namespace sync

theorem handleRemoteClipboardItem_apiClient (L : CryptoLib) (sm : SyncManager)
    (w : clipboard.WriteEnv) (item : api.ClipboardItem) :
    (handleRemoteClipboardItem L sm w item).1.apiClient = sm.apiClient := by
  unfold handleRemoteClipboardItem
  cases api.DecryptClipboardItem L sm.apiClient item with
  | error e => rfl
  | ok d =>
    simp only []
    generalize clipboard.SetClipboard L sm.clipboardMonitor w _ = r
    rcases r with ⟨m, _ | e⟩ <;> rfl

theorem handleItems_apiClient (L : CryptoLib) (wenv : Nat → clipboard.WriteEnv)
    (items : List api.ClipboardItem) :
    ∀ (sm : SyncManager) (i : Nat), (handleItems L wenv sm i items).1.apiClient = sm.apiClient := by
  induction items with
  | nil => intro sm i; rfl
  | cons item rest ih =>
    intro sm i
    simp only [handleItems]
    rw [ih, handleRemoteClipboardItem_apiClient]

theorem handleItems_items (L : CryptoLib) (wenv : Nat → clipboard.WriteEnv)
    (items : List api.ClipboardItem) :
    ∀ (sm : SyncManager) (i : Nat),
      (handleItems L wenv sm i items).2.map (fun h => h.item) = items := by
  induction items with
  | nil => intro sm i; rfl
  | cons item rest ih =>
    intro sm i
    simp only [handleItems, List.map_cons, ih]

theorem handleItems_lastSeq (L : CryptoLib) (wenv : Nat → clipboard.WriteEnv)
    (items : List api.ClipboardItem) :
    ∀ (sm : SyncManager) (i : Nat),
      ∀ h ∈ (handleItems L wenv sm i items).2, h.lastSeq = sm.apiClient.lastSeq := by
  induction items with
  | nil => intro sm i h hh; simp [handleItems] at hh
  | cons item rest ih =>
    intro sm i h hh
    simp only [handleItems, List.mem_cons] at hh
    rcases hh with rfl | hh
    · rfl
    · rw [ih _ _ h hh, handleRemoteClipboardItem_apiClient]

/-- After an answered poll the record is that of the loop over the response, run on
the manager whose cursor has already been moved. -/
theorem pollForUpdates_ok (L : CryptoLib) (sm : SyncManager) (now : Int)
    (srv : api.PollRequest → Except String api.PollResponse)
    (wenv : Nat → clipboard.WriteEnv) (resp : api.PollResponse)
    (h : srv (api.pollRequest sm.apiClient) = .ok resp) :
    pollForUpdates L sm now srv wenv =
      handleItems L wenv
        { sm with lastPollTime := now,
                  apiClient := { sm.apiClient with
                                 lastSeq := max sm.apiClient.lastSeq resp.LastSeq },
                  lastError := none } 0 resp.Items := by
  unfold pollForUpdates
  simp only [api.PollForUpdates_ok sm.apiClient srv resp h]
  cases hitems : resp.Items with
  | nil => simp [handleItems]
  | cons a t => simp

theorem pollForUpdates_error (L : CryptoLib) (sm : SyncManager) (now : Int)
    (srv : api.PollRequest → Except String api.PollResponse)
    (wenv : Nat → clipboard.WriteEnv) (err : String)
    (h : srv (api.pollRequest sm.apiClient) = .error err) :
    pollForUpdates L sm now srv wenv =
      ({ sm with lastPollTime := now, lastError := some err }, []) := by
  unfold pollForUpdates
  simp only [api.PollForUpdates_error sm.apiClient srv err h]

theorem backfill_delivered (received : Bool) (items : List config.ClipboardItem) :
    ∀ (cfg : config.AgentConfig), ∀ it ∈ (backfill received cfg items).2, it ∈ items := by
  induction items with
  | nil => intro cfg it hit; simp [backfill] at hit
  | cons item rest ih =>
    intro cfg it hit
    simp only [backfill] at hit
    cases received with
    | false =>
      simp only [Bool.false_eq_true, if_false] at hit
      exact List.mem_cons_of_mem _ (ih _ it hit)
    | true =>
      simp only [if_true, List.mem_cons] at hit
      rcases hit with rfl | hit
      · exact List.mem_cons_self _ _
      · exact List.mem_cons_of_mem _ (ih _ it hit)

theorem backfill_LastSeq_ge (received : Bool) (items : List config.ClipboardItem) :
    ∀ (cfg : config.AgentConfig), cfg.LastSeq ≤ (backfill received cfg items).1.LastSeq := by
  induction items with
  | nil => intro cfg; simp [backfill]
  | cons item rest ih =>
    intro cfg
    simp only [backfill]
    by_cases hgt : item.Seq > cfg.LastSeq
    · simp only [hgt, if_true]
      exact le_trans (le_of_lt hgt) (ih _)
    · simp only [hgt, if_false]
      exact ih _

/-- The items `Connect` passes to the callback are items of the backfill answer. -/
theorem Connect_delivered (sc : SyncClient) (cfg : config.AgentConfig)
    (fetch : Int → Int → Except String (List config.ClipboardItem)) (now : Int)
    (dialErr : Option String) (hcfg : sc.config = some cfg) :
    ∀ it ∈ (Connect sc fetch now dialErr).2.1,
      ∃ items, fetch cfg.LastSeq 100 = .ok items ∧ it ∈ items := by
  intro it hit
  unfold Connect at hit
  rw [hcfg] at hit
  simp only at hit
  by_cases htok : cfg.AccessToken = ""
  · simp [htok] at hit
  · simp only [htok, if_false] at hit
    by_cases hseq : cfg.LastSeq > 0
    · simp only [hseq, if_true] at hit
      cases hf : fetch cfg.LastSeq 100 with
      | error e =>
        rw [hf] at hit
        cases dialErr <;> simp at hit
      | ok items =>
        rw [hf] at hit
        by_cases hlen : items.length > 0
        · simp only [hlen, if_true] at hit
          refine ⟨items, rfl, ?_⟩
          cases dialErr <;> exact backfill_delivered _ _ _ _ hit
        · simp only [hlen, if_false] at hit
          cases dialErr <;> simp at hit
    · simp only [hseq, if_false] at hit
      cases dialErr <;> simp at hit

/-- C5, as stated, fails.  From cursor 0, a poll answered with one item of seq 1 and
lastSeq 1 applies that item at a moment when `GetLastSeq` is already 1; and from
cursor 5, an item of seq 3 that the server returns all the same is applied too. -/
theorem poll_applies_item_at_cursor :
    (pollForUpdates demoLib exManager 0 (exPoll 1 "dev-other" "hi" 1) (fun _ => okWrite)).2
        = [{ item := exItem 1 "dev-other" "hi", lastSeq := 1, err := none }]
      ∧ (exItem 1 "dev-other" "hi").Seq ≤ 1
      ∧ api.GetLastSeq (exManagerAt 5).apiClient = 5
      ∧ (pollForUpdates demoLib (exManagerAt 5) 0 (exPoll 3 "dev-other" "old" 5)
          (fun _ => okWrite)).2
        = [{ item := exItem 3 "dev-other" "old", lastSeq := 5, err := none }]
      ∧ (exItem 3 "dev-other" "old").Seq ≤ 5 := by
  refine ⟨rfl, by decide, rfl, rfl, by decide⟩

/-- C5, amended: when the server answers a poll, and the items endpoint answers the
connect-time backfill, only with items whose seq is greater than the `since` they
were sent, every item `pollForUpdates` handles and every item the backfill of
`Connect` passes on has a seq greater than the cursor as it stood when the call
began.  The engine itself makes no comparison: every item of a poll response is
handled, in response order. -/
theorem remote_items_after_request_cursor (L : CryptoLib) (sm : SyncManager) (now : Int)
    (srv : api.PollRequest → Except String api.PollResponse)
    (wenv : Nat → clipboard.WriteEnv) (sc : SyncClient) (cfg : config.AgentConfig)
    (fetch : Int → Int → Except String (List config.ClipboardItem)) (dialErr : Option String)
    (hsrv : ∀ req resp, srv req = .ok resp → ∀ it ∈ resp.Items, req.since < it.Seq)
    (hfetch : ∀ since limit items, fetch since limit = .ok items →
      ∀ it ∈ items, since < it.Seq)
    (hcfg : sc.config = some cfg) :
    (∀ h ∈ (pollForUpdates L sm now srv wenv).2, api.GetLastSeq sm.apiClient < h.item.Seq)
      ∧ (∀ it ∈ (Connect sc fetch now dialErr).2.1, cfg.LastSeq < it.Seq)
      ∧ (∀ resp, srv (api.pollRequest sm.apiClient) = .ok resp →
          (pollForUpdates L sm now srv wenv).2.map (fun h => h.item) = resp.Items) := by
  refine ⟨?_, ?_, ?_⟩
  · intro h hh
    cases hs : srv (api.pollRequest sm.apiClient) with
    | error err =>
      rw [pollForUpdates_error L sm now srv wenv err hs] at hh
      simp at hh
    | ok resp =>
      rw [pollForUpdates_ok L sm now srv wenv resp hs] at hh
      have hmem : h.item ∈ resp.Items := by
        rw [← handleItems_items L wenv resp.Items _ 0]
        exact List.mem_map_of_mem _ hh
      exact hsrv _ resp hs _ hmem
  · intro it hit
    obtain ⟨items, hf, hmem⟩ := Connect_delivered sc cfg fetch now dialErr hcfg it hit
    exact hfetch _ _ items hf it hmem
  · intro resp hs
    rw [pollForUpdates_ok L sm now srv wenv resp hs]
    exact handleItems_items L wenv resp.Items _ 0

theorem remote_items_after_request_cursor_witness :
    (∀ req resp, exHonestServer req = .ok resp → ∀ it ∈ resp.Items, req.since < it.Seq)
      ∧ (∀ since limit items, exHonestFetch since limit = .ok items →
          ∀ it ∈ items, since < it.Seq)
      ∧ exSyncClient.config = some exConfig
      ∧ (∀ h ∈ (pollForUpdates demoLib exManager 0 exHonestServer (fun _ => okWrite)).2,
          api.GetLastSeq exManager.apiClient < h.item.Seq)
      ∧ (∀ it ∈ (Connect exSyncClient exHonestFetch 0 none).2.1, exConfig.LastSeq < it.Seq) :=
  have hsrv : ∀ req resp, exHonestServer req = .ok resp →
      ∀ it ∈ resp.Items, req.since < it.Seq := by
    intro req resp h it hit
    simp only [exHonestServer, Except.ok.injEq] at h
    subst h
    simp only [List.mem_singleton] at hit
    subst hit
    simp [exItem]
  have hfetch : ∀ since limit items, exHonestFetch since limit = .ok items →
      ∀ it ∈ items, since < it.Seq := by
    intro since limit items h it hit
    simp only [exHonestFetch, Except.ok.injEq] at h
    subst h
    simp only [List.mem_singleton] at hit
    subst hit
    simp [exRemoteItem]
  ⟨hsrv, hfetch, rfl,
    (remote_items_after_request_cursor demoLib exManager 0 exHonestServer (fun _ => okWrite)
      exSyncClient exConfig exHonestFetch none hsrv hfetch rfl).1,
    (remote_items_after_request_cursor demoLib exManager 0 exHonestServer (fun _ => okWrite)
      exSyncClient exConfig exHonestFetch none hsrv hfetch rfl).2.1⟩

/-- C6, as stated, fails: a poll answered with the items of seq 1 and 2, both applied,
and a lastSeq field of 0 leaves the cursor at 0, not at 2. -/
theorem poll_cursor_not_last_item :
    appliedItems (pollForUpdates demoLib exManager 0
        (fun _ => .ok { Items := [exItem 1 "dev-other" "a", exItem 2 "dev-other" "b"],
                        LastSeq := 0, Count := 2 })
        (fun _ => okWrite)).2
        = [exItem 1 "dev-other" "a", exItem 2 "dev-other" "b"]
      ∧ api.GetLastSeq (pollForUpdates demoLib exManager 0
        (fun _ => .ok { Items := [exItem 1 "dev-other" "a", exItem 2 "dev-other" "b"],
                        LastSeq := 0, Count := 2 })
        (fun _ => okWrite)).1.apiClient = 0 := by
  constructor
  · rfl
  · rfl

/-- C6, amended: after a poll that the server answers, the cursor `GetLastSeq` is the
greater of its previous value and the lastSeq field of the response, whatever the
items are; so it equals the seq of the last item exactly when the response's lastSeq
field carries that seq and the cursor was not already beyond it. -/
theorem poll_cursor_is_response_lastSeq (L : CryptoLib) (sm : SyncManager) (now : Int)
    (srv : api.PollRequest → Except String api.PollResponse)
    (wenv : Nat → clipboard.WriteEnv) (resp : api.PollResponse)
    (hresp : srv (api.pollRequest sm.apiClient) = .ok resp) :
    api.GetLastSeq (pollForUpdates L sm now srv wenv).1.apiClient
        = max (api.GetLastSeq sm.apiClient) resp.LastSeq
      ∧ (∀ last, resp.Items.getLast? = some last →
          (api.GetLastSeq (pollForUpdates L sm now srv wenv).1.apiClient = last.Seq
            ↔ (resp.LastSeq = last.Seq ∧ api.GetLastSeq sm.apiClient ≤ last.Seq)
              ∨ (api.GetLastSeq sm.apiClient = last.Seq ∧ resp.LastSeq ≤ last.Seq))) := by
  have hcur : api.GetLastSeq (pollForUpdates L sm now srv wenv).1.apiClient
      = max (api.GetLastSeq sm.apiClient) resp.LastSeq := by
    rw [pollForUpdates_ok L sm now srv wenv resp hresp]
    unfold api.GetLastSeq
    rw [handleItems_apiClient]
  refine ⟨hcur, ?_⟩
  intro last _
  rw [hcur]
  constructor
  · intro h
    rcases le_total (api.GetLastSeq sm.apiClient) resp.LastSeq with hle | hle
    · rw [max_eq_right hle] at h
      exact Or.inl ⟨h, h ▸ hle⟩
    · rw [max_eq_left hle] at h
      exact Or.inr ⟨h, h ▸ hle⟩
  · rintro (⟨h1, h2⟩ | ⟨h1, h2⟩)
    · rw [h1, max_eq_right h2]
    · rw [h1, max_eq_left h2]

theorem poll_cursor_is_response_lastSeq_witness :
    exPoll 3 "dev-other" "hi" 3 (api.pollRequest exManager.apiClient)
        = .ok { Items := [exItem 3 "dev-other" "hi"], LastSeq := 3, Count := 1 }
      ∧ api.GetLastSeq (pollForUpdates demoLib exManager 0 (exPoll 3 "dev-other" "hi" 3)
          (fun _ => okWrite)).1.apiClient = max (api.GetLastSeq exManager.apiClient) 3 :=
  ⟨rfl,
    (poll_cursor_is_response_lastSeq demoLib exManager 0 (exPoll 3 "dev-other" "hi" 3)
      (fun _ => okWrite) _ rfl).1⟩

/-- C7, as stated, fails: an item of a poll response whose deviceId is the local
device identifier is decrypted and written to the local clipboard like any other. -/
theorem poll_applies_own_device_item :
    (exItem 1 "dev-local" "echo").DeviceID = exManager.apiClient.deviceID
      ∧ appliedItems (pollForUpdates demoLib exManager 0 (exPoll 1 "dev-local" "echo" 1)
          (fun _ => okWrite)).2 = [exItem 1 "dev-local" "echo"]
      ∧ (pollForUpdates demoLib exManager 0 (exPoll 1 "dev-local" "echo" 1)
          (fun _ => okWrite)).1.itemsReceived = 1 := by
  refine ⟨rfl, rfl, rfl⟩

/-- C7, amended: a websocket message whose device_id field equals the local device
identifier is never passed to the item-received callback: every item passed on comes
from a message that was read and whose device_id differs from the client's.  On the
poll path the agent asks the server to leave its own items out (the request carries
excludeDevice=true) and makes no comparison of its own: every item of the response
is handled. -/
theorem own_device_messages_skipped :
    (∀ (c : Client) (reads : List (Except String config.RemoteClipboardMessage)),
        ∀ it ∈ (handleWebSocketMessages c reads).2,
          ∃ m, Except.ok m ∈ reads ∧ m.Item = it ∧ m.DeviceID ≠ c.deviceID)
      ∧ (∀ c : api.APIClient, (api.pollRequest c).excludeDevice = true)
      ∧ (∀ (L : CryptoLib) (sm : SyncManager) (now : Int)
          (srv : api.PollRequest → Except String api.PollResponse)
          (wenv : Nat → clipboard.WriteEnv) (resp : api.PollResponse),
          srv (api.pollRequest sm.apiClient) = .ok resp →
          (pollForUpdates L sm now srv wenv).2.map (fun h => h.item) = resp.Items) := by
  refine ⟨?_, fun c => rfl, ?_⟩
  rotate_left
  · intro L sm now srv wenv resp hs
    rw [pollForUpdates_ok L sm now srv wenv resp hs]
    exact handleItems_items L wenv resp.Items _ 0
  intro c reads
  induction reads with
  | nil => intro it hit; simp [handleWebSocketMessages] at hit
  | cons r rest ih =>
    intro it hit
    cases r with
    | error e => simp [handleWebSocketMessages] at hit
    | ok message =>
      simp only [handleWebSocketMessages] at hit
      by_cases hdev : message.DeviceID = c.deviceID
      · simp only [hdev, if_true] at hit
        obtain ⟨m, hm, h1, h2⟩ := ih it hit
        exact ⟨m, List.mem_cons_of_mem _ hm, h1, h2⟩
      · simp only [hdev, if_false] at hit
        cases hcb : c.onItemReceived with
        | false =>
          simp only [hcb, Bool.false_eq_true, if_false] at hit
          obtain ⟨m, hm, h1, h2⟩ := ih it hit
          exact ⟨m, List.mem_cons_of_mem _ hm, h1, h2⟩
        | true =>
          simp only [hcb, if_true, List.mem_cons] at hit
          rcases hit with rfl | hit
          · exact ⟨message, List.mem_cons_self _ _, rfl, hdev⟩
          · obtain ⟨m, hm, h1, h2⟩ := ih it hit
            exact ⟨m, List.mem_cons_of_mem _ hm, h1, h2⟩

theorem own_device_messages_skipped_witness :
    (handleWebSocketMessages exSyncClient.apiClient
        [.ok { Item := exRemoteItem 6 "dev-local" "mine", DeviceID := "dev-local" },
         .ok { Item := exRemoteItem 7 "dev-other" "theirs", DeviceID := "dev-other" }]).2
        = [exRemoteItem 7 "dev-other" "theirs"]
      ∧ ∃ m, Except.ok m ∈
            ([.ok { Item := exRemoteItem 6 "dev-local" "mine", DeviceID := "dev-local" },
              .ok { Item := exRemoteItem 7 "dev-other" "theirs", DeviceID := "dev-other" }] :
              List (Except String config.RemoteClipboardMessage))
          ∧ m.Item = exRemoteItem 7 "dev-other" "theirs"
          ∧ m.DeviceID ≠ exSyncClient.apiClient.deviceID :=
  ⟨rfl,
    own_device_messages_skipped.1 exSyncClient.apiClient
      [.ok { Item := exRemoteItem 6 "dev-local" "mine", DeviceID := "dev-local" },
       .ok { Item := exRemoteItem 7 "dev-other" "theirs", DeviceID := "dev-other" }]
      (exRemoteItem 7 "dev-other" "theirs") (by decide)⟩

/-- The retry loop when every remaining attempt fails: only `lastError` is written. -/
theorem sendAttempts_all_fail (L : CryptoLib) (sm : SyncManager) (env : Nat → SendEnv)
    (text : String) (errs : Nat → String) :
    ∀ (remaining attempt : Nat) (lastErr : Option String),
      (∀ i, attempt ≤ i → i < attempt + remaining →
        api.SyncClipboardItem L sm.apiClient (env i).rnd (env i).respond text "text/plain" []
          = .error (errs i)) →
      sendAttempts L sm env text remaining attempt lastErr =
        { sm with lastError :=
            if remaining = 0 then lastErr else some (errs (attempt + remaining - 1)) } := by
  intro remaining
  induction remaining with
  | zero => intro attempt lastErr _; simp [sendAttempts]
  | succ n ih =>
    intro attempt lastErr hfail
    have h0 := hfail attempt (le_refl _) (by omega)
    simp only [sendAttempts, h0]
    rw [ih (attempt + 1) (some (errs attempt)) (fun i h1 h2 => hfail i (by omega) (by omega))]
    by_cases hn : n = 0
    · subst hn
      simp
    · have e1 : attempt + 1 + n - 1 = attempt + (n + 1) - 1 := by omega
      simp [hn, e1]

/-- C8, as stated, fails: when all three attempts fail the manager comes out the same
whatever the text was, with only `lastError` written; the change is kept nowhere. -/
theorem failed_send_drops_item :
    handleLocalClipboardChange demoLib exManager (fun _ => failingSend) (exContent "hello")
        = { exManager with lastError := some "request failed" }
      ∧ handleLocalClipboardChange demoLib exManager (fun _ => failingSend) (exContent "world")
        = handleLocalClipboardChange demoLib exManager (fun _ => failingSend)
            (exContent "hello") := by
  constructor
  · rfl
  · rfl

/-- C8, amended: when every send attempt for a locally detected, non-empty clipboard
change fails, `handleLocalClipboardChange` writes the error of the last attempt to
`lastError` (nil when `maxRetries` allows no attempt) and changes nothing else: the
item is not placed in any queue. -/
theorem failed_send_only_records_error (L : CryptoLib) (sm : SyncManager)
    (env : Nat → SendEnv) (content : clipboard.Content) (errs : Nat → String)
    (htext : content.Text ≠ "")
    (hfail : ∀ i, i < sm.maxRetries.toNat →
      api.SyncClipboardItem L sm.apiClient (env i).rnd (env i).respond content.Text
        "text/plain" [] = .error (errs i)) :
    handleLocalClipboardChange L sm env content =
      { sm with lastError :=
          if sm.maxRetries.toNat = 0 then none
          else some (errs (sm.maxRetries.toNat - 1)) } := by
  unfold handleLocalClipboardChange
  simp only [htext, if_false]
  rw [sendAttempts_all_fail L sm env content.Text errs sm.maxRetries.toNat 0 none
    (fun i _ h2 => hfail i (by omega))]
  simp

theorem failed_send_only_records_error_witness :
    (exContent "hello").Text ≠ ""
      ∧ (∀ i, i < exManager.maxRetries.toNat →
          api.SyncClipboardItem demoLib exManager.apiClient failingSend.rnd failingSend.respond
            (exContent "hello").Text "text/plain" [] = .error "request failed")
      ∧ handleLocalClipboardChange demoLib exManager (fun _ => failingSend) (exContent "hello")
          = { exManager with
              lastError :=
                if exManager.maxRetries.toNat = 0 then none else some "request failed" } :=
  ⟨by decide, fun _ _ => rfl,
    failed_send_only_records_error demoLib exManager (fun _ => failingSend) (exContent "hello")
      (fun _ => "request failed") (by decide) (fun _ _ => rfl)⟩

/-- The three guarded writers of a cursor never lower it: `PollForUpdates`,
`SendItem` and `Connect` (with its backfill) leave it at least where it was. -/
theorem guarded_cursor_writes_monotone :
    (∀ (c : api.APIClient) (srv : api.PollRequest → Except String api.PollResponse),
        api.GetLastSeq c ≤ api.GetLastSeq (api.PollForUpdates c srv).1)
      ∧ (∀ (sc : SyncClient) (cfg : config.AgentConfig)
          (create : config.ClipboardItem → Except String (Option config.ClipboardItem))
          (now : Int) (item : config.ClipboardItem), sc.config = some cfg →
          ∃ cfg1, (SendItem sc create now item).1.config = some cfg1
            ∧ cfg.LastSeq ≤ cfg1.LastSeq)
      ∧ (∀ (sc : SyncClient) (cfg : config.AgentConfig)
          (fetch : Int → Int → Except String (List config.ClipboardItem)) (now : Int)
          (dialErr : Option String), sc.config = some cfg →
          ∃ cfg1, (Connect sc fetch now dialErr).1.config = some cfg1
            ∧ cfg.LastSeq ≤ cfg1.LastSeq) := by
  refine ⟨?_, ?_, ?_⟩
  · intro c srv
    cases hs : srv (api.pollRequest c) with
    | error err => rw [api.PollForUpdates_error c srv err hs]
    | ok resp =>
      rw [api.PollForUpdates_ok c srv resp hs]
      exact le_max_left _ _
  · intro sc cfg create now item hcfg
    unfold SendItem
    rw [hcfg]
    simp only
    by_cases htok : cfg.AccessToken = ""
    · simp only [htok, if_true]
      exact ⟨cfg, hcfg, le_refl _⟩
    · simp only [htok, if_false]
      cases hc : create item with
      | error err => exact ⟨cfg, hcfg, le_refl _⟩
      | ok r =>
        cases r with
        | none => exact ⟨cfg, hcfg, le_refl _⟩
        | some serverItem =>
          simp only
          by_cases hgt : serverItem.Seq > cfg.LastSeq
          · simp only [hgt, if_true]
            exact ⟨_, rfl, le_of_lt hgt⟩
          · simp only [hgt, if_false]
            exact ⟨cfg, hcfg, le_refl _⟩
  · intro sc cfg fetch now dialErr hcfg
    unfold Connect
    rw [hcfg]
    simp only
    by_cases htok : cfg.AccessToken = ""
    · simp only [htok, if_true]
      exact ⟨cfg, hcfg, le_refl _⟩
    · simp only [htok, if_false]
      have hfilled : cfg.LastSeq ≤
          (if cfg.LastSeq > 0 then
            match fetch cfg.LastSeq 100 with
            | .error _ => (cfg, ([] : List config.ClipboardItem))
            | .ok items =>
              if items.length > 0 then
                ({ (backfill sc.onItemReceived cfg items).1 with UpdatedAt := now },
                  (backfill sc.onItemReceived cfg items).2)
              else (cfg, [])
          else (cfg, [])).1.LastSeq := by
        by_cases hseq : cfg.LastSeq > 0
        · simp only [hseq, if_true]
          cases hf : fetch cfg.LastSeq 100 with
          | error e => exact le_refl _
          | ok items =>
            simp only
            by_cases hlen : items.length > 0
            · simp only [hlen, if_true]
              exact backfill_LastSeq_ge _ _ _
            · simp only [hlen, if_false]
              exact le_refl _
        · simp only [hseq, if_false]
          exact le_refl _
      cases dialErr with
      | none => exact ⟨_, rfl, hfilled⟩
      | some err => exact ⟨_, rfl, hfilled⟩

/-- C10: the cursor initialisation of `Start` lowers the cursor.  On a manager whose
cursor is 5, when the initial poll is answered with no items and lastSeq 0,
`GetInitialSeq` leaves the cursor at 5 and `SetLastSeq` then sets it to 0. -/
theorem start_lowers_cursor :
    api.GetLastSeq (exManagerAt 5).apiClient = 5
      ∧ api.GetLastSeq (api.GetInitialSeq (exManagerAt 5).apiClient
          (fun _ => .ok { Items := [], LastSeq := 0, Count := 0 })).1 = 5
      ∧ (StartInit (exManagerAt 5)
          (fun _ => .ok { Items := [], LastSeq := 0, Count := 0 })).2 = none
      ∧ api.GetLastSeq (StartInit (exManagerAt 5)
          (fun _ => .ok { Items := [], LastSeq := 0, Count := 0 })).1.apiClient = 0 := by
  refine ⟨rfl, rfl, rfl, rfl⟩

end sync

/-! ## Theorems: the offline queue -/

theorem wrap64_of_range (x : Int) (hlo : -(2 ^ 63) ≤ x) (hhi : x < 2 ^ 63) : wrap64 x = x := by
  unfold wrap64
  rw [Int.emod_eq_of_lt (by omega) (by omega)]
  omega

theorem timeSub_ge_iff (t u d : Int) (hd0 : -(2 ^ 63) < d) (hd : d < 2 ^ 63) :
    timeSub t u ≥ d ↔ t - u ≥ d := by
  unfold timeSub
  constructor
  · intro h
    by_contra hlt
    have h1 : min (2 ^ 63 - 1) (t - u) ≤ t - u := min_le_right _ _
    have h2 : max (-(2 ^ 63)) (min (2 ^ 63 - 1) (t - u)) < d := by
      apply max_lt
      · exact hd0
      · omega
    omega
  · intro h
    have h1 : d ≤ min (2 ^ 63 - 1) (t - u) := le_min (by omega) h
    exact le_trans h1 (le_max_right _ _)

namespace sync

theorem tempFile_ne (path : String) : path ++ ".tmp" ≠ path := by
  intro h
  have hlen := congrArg String.length h
  rw [String.length_append] at hlen
  have h4 : (".tmp" : String).length = 4 := by decide
  omega

/-- A save that returns no error has put the encoding of the items at the queue path. -/
theorem saveUnlocked_ok (J : JsonLib) (env : StoreEnv) (disk disk1 : Disk) (q : Queue)
    (h : saveUnlocked J env disk q = (disk1, none)) :
    ∃ data, J.marshal q.items = .ok data ∧ disk1 q.filePath = some data := by
  unfold saveUnlocked at h
  cases hm : J.marshal q.items with
  | error err => rw [hm] at h; simp at h
  | ok data =>
    rw [hm] at h
    simp only at h
    cases hw : env.writeErr with
    | some err => rw [hw] at h; simp at h
    | none =>
      rw [hw] at h
      simp only at h
      cases hr : env.renameErr with
      | some err => rw [hr] at h; simp at h
      | none =>
        rw [hr] at h
        simp only [Prod.mk.injEq, and_true] at h
        refine ⟨data, rfl, ?_⟩
        rw [← h]
        simp [renameFile, writeFile]

/-- Well-formed bytes are written and read back as they are. -/
theorem coerceFrom_of_valid :
    ∀ (b : Bytes) (k : Nat), utf8.validFrom k b = true → utf8.coerceFrom k b = b := by
  intro b
  induction b with
  | nil => intro k _; cases k <;> rfl
  | cons c rest ih =>
    intro k h
    cases k with
    | succ k =>
      simp only [utf8.validFrom] at h
      simp only [utf8.coerceFrom, ih k h]
    | zero =>
      simp only [utf8.validFrom] at h
      simp only [utf8.coerceFrom]
      cases hw : utf8.runeLen ((c :: rest).map Char.toNat) with
      | zero => rw [hw] at h; simp at h
      | succ n =>
        rw [hw] at h
        simp only at h
        simp only [ih n h]

/-- A string of well-formed UTF-8 is written and read back as it is. -/
theorem jsonString_of_valid (s : String) (h : utf8.ValidString s = true) :
    utf8.jsonString s = s := by
  unfold utf8.jsonString
  rw [coerceFrom_of_valid s.data 0 h]

/-- An item whose strings are well-formed UTF-8 is written and read back as it is. -/
theorem jsonItem_of_valid (item : config.ClipboardItem) (h : validItem item = true) :
    jsonItem item = item := by
  unfold validItem at h
  simp only [Bool.and_eq_true] at h
  obtain ⟨⟨⟨⟨⟨⟨⟨⟨h1, h2⟩, h3⟩, h4⟩, h5⟩, h6⟩, h7⟩, h8⟩, _⟩ := h
  unfold jsonItem
  rw [jsonString_of_valid _ h1, jsonString_of_valid _ h2, jsonString_of_valid _ h3,
    jsonString_of_valid _ h4, jsonString_of_valid _ h5, jsonString_of_valid _ h6,
    jsonString_of_valid _ h7, jsonString_of_valid _ h8]

/-- What a fresh queue loads after a successful `Add` to an empty queue: the one
entry, its strings as `encoding/json` reads them back. -/
theorem add_then_load_json (J : JsonLib) (env lenv : StoreEnv) (now : Int) (disk disk1 : Disk)
    (q q1 : Queue) (item : config.ClipboardItem)
    (hempty : q.items = [])
    (hadd : Add J env now disk q item = (q1, disk1, none))
    (hmk : lenv.mkdirErr = none) (hrd : lenv.readErr = none)
    (hmeta : item.Meta.all (fun e => utf8.ValidString e.1 && utf8.ValidString e.2) = true) :
    Load J lenv disk1 (NewQueue q.filePath) =
      ({ filePath := q.filePath,
         items := [{ Item := jsonItem item, Attempts := 0, QueuedAt := now,
                     LastTry := zeroTime }] },
        none) := by
  unfold Add at hadd
  simp only [hempty, List.nil_append, Prod.mk.injEq] at hadd
  obtain ⟨_, hd, he⟩ := hadd
  have hsave : saveUnlocked J env disk
      { q with items := [{ Item := item, Attempts := 0, QueuedAt := now, LastTry := zeroTime }] }
      = (disk1, none) := by
    rw [← hd, ← he]
  obtain ⟨data, hm, hfile⟩ := saveUnlocked_ok J env disk disk1 _ hsave
  have hne : data ≠ [] := J.marshal_nonempty _ _ hm
  have hlen : ¬ data.length = 0 := by
    intro h0
    exact hne (List.length_eq_zero.mp h0)
  have hun := J.unmarshal_marshal _ _
    (fun x hx => by
      simp only [List.mem_singleton] at hx
      subst hx
      exact hmeta) hm
  simp only at hfile hun
  unfold Load
  simp only [hmk, hrd, NewQueue, hfile, hlen, if_false, hun, List.map, jsonQueued]

/-- C11, as stated, fails: an item whose text is the single byte `0xFF` is added to
an empty queue without an error, and a fresh queue that loads the same path holds
one entry whose Item is the item with the three bytes of U+FFFD as its text, which
is not the item that was added. -/
theorem add_then_load_replaces_invalid_byte :
    (Add exJsonRaw noFault 7 emptyDisk (exQueue []) exRawItem).2.2 = none
      ∧ Load exJsonRaw noFault
            (Add exJsonRaw noFault 7 emptyDisk (exQueue []) exRawItem).2.1
            (NewQueue "queue.json")
          = ({ filePath := "queue.json",
               items := [{ Item := { exRawItem with Text := String.mk utf8.replacement },
                           Attempts := 0, QueuedAt := 7, LastTry := zeroTime }] }, none)
      ∧ exRawItem.Text = "\xff"
      ∧ { exRawItem with Text := String.mk utf8.replacement } ≠ exRawItem := by
  refine ⟨rfl, rfl, rfl, by decide⟩

/-- C11, amended: for an empty queue bound to a path and an item whose strings (its
string fields and the keys and values of `Meta`) are well-formed UTF-8, once
`Add item` has returned no error, a fresh queue that calls `Load` on the same path
(and meets no input or output error) holds exactly one entry, whose Item is `item`,
whose Attempts is 0, whose QueuedAt is the time of the `Add` and whose LastTry is
the zero time. -/
theorem add_then_load (J : JsonLib) (env lenv : StoreEnv) (now : Int) (disk disk1 : Disk)
    (q q1 : Queue) (item : config.ClipboardItem)
    (hempty : q.items = [])
    (hadd : Add J env now disk q item = (q1, disk1, none))
    (hmk : lenv.mkdirErr = none) (hrd : lenv.readErr = none)
    (hvalid : validItem item = true) :
    Load J lenv disk1 (NewQueue q.filePath) =
      ({ filePath := q.filePath,
         items := [{ Item := item, Attempts := 0, QueuedAt := now, LastTry := zeroTime }] },
        none) := by
  have hmeta : item.Meta.all (fun e => utf8.ValidString e.1 && utf8.ValidString e.2) = true := by
    unfold validItem at hvalid
    simp only [Bool.and_eq_true] at hvalid
    exact hvalid.2
  rw [add_then_load_json J env lenv now disk disk1 q q1 item hempty hadd hmk hrd hmeta,
    jsonItem_of_valid item hvalid]

theorem add_then_load_witness :
    (exQueue []).items = []
      ∧ (Add exJson noFault 7 emptyDisk (exQueue []) (exLocalItem "hello")).2.2 = none
      ∧ noFault.mkdirErr = none ∧ noFault.readErr = none
      ∧ validItem (exLocalItem "hello") = true
      ∧ Load exJson noFault
            (Add exJson noFault 7 emptyDisk (exQueue []) (exLocalItem "hello")).2.1
            (NewQueue "queue.json")
          = ({ filePath := "queue.json",
               items := [{ Item := exLocalItem "hello", Attempts := 0, QueuedAt := 7,
                           LastTry := zeroTime }] }, none) :=
  ⟨rfl, rfl, rfl, rfl, by decide,
    add_then_load exJson noFault noFault 7 emptyDisk
      (Add exJson noFault 7 emptyDisk (exQueue []) (exLocalItem "hello")).2.1
      (exQueue [])
      (Add exJson noFault 7 emptyDisk (exQueue []) (exLocalItem "hello")).1
      (exLocalItem "hello") rfl rfl rfl rfl (by decide)⟩

/-- Up to 27 attempts the delay is the exact `2^k` minutes. -/
theorem backoffDelay_exact (k : Int) (h0 : 0 ≤ k) (h27 : k ≤ 27) :
    backoffDelay k = 2 ^ k.toNat * minute := by
  interval_cases k <;> rfl

/-- Up to 27 attempts the test of `GetPending` is the one the backoff rule states. -/
theorem isPending_exact (now maxAttempts : Int) (item : QueuedItem)
    (h0 : 0 ≤ item.Attempts) (h27 : item.Attempts ≤ 27) :
    isPending now maxAttempts item =
      (decide (item.Attempts < maxAttempts) &&
        (decide (item.Attempts = 0) ||
          decide (now - item.LastTry ≥ 2 ^ item.Attempts.toNat * minute))) := by
  unfold isPending
  by_cases hmax : item.Attempts ≥ maxAttempts
  · have hlt : ¬ item.Attempts < maxAttempts := not_lt.mpr hmax
    simp [hmax, hlt]
  · have hlt : item.Attempts < maxAttempts := not_le.mp hmax
    have hd := backoffDelay_exact item.Attempts h0 h27
    have hpos : (0 : Int) < 2 ^ item.Attempts.toNat * minute := by
      have : (0 : Int) < 2 ^ item.Attempts.toNat := by positivity
      have hm : (0 : Int) < minute := by decide
      exact mul_pos this hm
    have hbound : backoffDelay item.Attempts < 2 ^ 63 := by
      unfold backoffDelay wrap64
      have := Int.emod_lt_of_pos (shiftOne (toUint64 item.Attempts) * minute + 2 ^ 63)
        (show (0 : Int) < 2 ^ 64 by norm_num)
      omega
    have hiff := timeSub_ge_iff now item.LastTry (backoffDelay item.Attempts)
      (by rw [hd]; omega) hbound
    simp only [hmax, if_false, hlt, decide_True, Bool.true_and]
    congr 1
    rw [← hd]
    exact decide_eq_decide.mpr hiff

/-- C12: the delay is not `2^k` minutes for every k.  With 28 attempts the product
`2^28 * time.Minute` leaves the range of `int64` and comes out negative, so an item
last tried one minute ago is returned by `GetPending(29)` although `2^28` minutes
have not passed. -/
theorem backoff_wraps_at_28 :
    backoffDelay 28 = -2340616713709551616
      ∧ GetPending (exQueue [exQueued "hello" 28 0]) minute 29 = [exQueued "hello" 28 0]
      ∧ minute - (exQueued "hello" 28 0).LastTry < 2 ^ 28 * minute := by
  refine ⟨rfl, rfl, by decide⟩

/-- When every item that is below `maxAttempts` has between 0 and 27 attempts,
`GetPending` returns the pending items of the specification. -/
theorem GetPending_eq_pendingSpec (q : Queue) (now maxAttempts : Int)
    (h : ∀ item ∈ q.items, item.Attempts < maxAttempts →
      0 ≤ item.Attempts ∧ item.Attempts ≤ 27) :
    GetPending q now maxAttempts = pendingSpec q now maxAttempts := by
  unfold GetPending pendingSpec
  apply List.filter_congr
  intro item hmem
  by_cases hlt : item.Attempts < maxAttempts
  · obtain ⟨h0, h27⟩ := h item hmem hlt
    exact isPending_exact now maxAttempts item h0 h27
  · have hge : item.Attempts ≥ maxAttempts := not_lt.mp hlt
    simp [isPending, hge, hlt]

/-- C13: `GetPending` does not return exactly the items the specification names.
With 53 attempts the delay computed in `int64` is 0, so an item tried one minute
ago is returned by `GetPending(60)`, while `2^53` minutes have not passed and the
specification leaves it out. -/
theorem pending_differs_from_spec :
    backoffDelay 53 = 0
      ∧ GetPending (exQueue [exQueued "a" 0 0, exQueued "b" 53 0]) minute 60
          = [exQueued "a" 0 0, exQueued "b" 53 0]
      ∧ pendingSpec (exQueue [exQueued "a" 0 0, exQueued "b" 53 0]) minute 60
          = [exQueued "a" 0 0] := by
  refine ⟨rfl, rfl, rfl⟩

theorem removeFirst_split (itemID : String) (x : QueuedItem) (post : List QueuedItem)
    (hx : x.Item.ID = itemID) :
    ∀ pre : List QueuedItem, (∀ y ∈ pre, y.Item.ID ≠ itemID) →
      removeFirst itemID (pre ++ x :: post) = some (pre ++ post) := by
  intro pre
  induction pre with
  | nil => intro _; simp [removeFirst, hx]
  | cons a t ih =>
    intro hpre
    have ha : a.Item.ID ≠ itemID := hpre a (List.mem_cons_self _ _)
    have ht := ih (fun y hy => hpre y (List.mem_cons_of_mem _ hy))
    simp [removeFirst, ha, ht]

theorem removeFirst_none (itemID : String) :
    ∀ items : List QueuedItem, (∀ y ∈ items, y.Item.ID ≠ itemID) →
      removeFirst itemID items = none := by
  intro items
  induction items with
  | nil => intro _; rfl
  | cons a t ih =>
    intro h
    have ha : a.Item.ID ≠ itemID := h a (List.mem_cons_self _ _)
    have ht := ih (fun y hy => h y (List.mem_cons_of_mem _ hy))
    simp [removeFirst, ha, ht]

theorem markFirst_split (now : Int) (itemID : String) (x : QueuedItem) (post : List QueuedItem)
    (hx : x.Item.ID = itemID) :
    ∀ pre : List QueuedItem, (∀ y ∈ pre, y.Item.ID ≠ itemID) →
      markFirst now itemID (pre ++ x :: post)
        = some (pre ++ { x with Attempts := x.Attempts + 1, LastTry := now } :: post) := by
  intro pre
  induction pre with
  | nil => intro _; simp [markFirst, hx]
  | cons a t ih =>
    intro hpre
    have ha : a.Item.ID ≠ itemID := hpre a (List.mem_cons_self _ _)
    have ht := ih (fun y hy => hpre y (List.mem_cons_of_mem _ hy))
    simp [markFirst, ha, ht]

theorem markFirst_none (now : Int) (itemID : String) :
    ∀ items : List QueuedItem, (∀ y ∈ items, y.Item.ID ≠ itemID) →
      markFirst now itemID items = none := by
  intro items
  induction items with
  | nil => intro _; rfl
  | cons a t ih =>
    intro h
    have ha : a.Item.ID ≠ itemID := h a (List.mem_cons_self _ _)
    have ht := ih (fun y hy => h y (List.mem_cons_of_mem _ hy))
    simp [markFirst, ha, ht]

/-- C14, as stated, fails: two local items wait in the queue, neither with an ID yet;
`Remove("")` returns no error and cuts out the first, and the second, whose ID is
also "", is still in the queue. -/
theorem remove_leaves_same_id :
    (Remove exJsonB noFault emptyDisk
        (exQueue [exQueued "a" 0 zeroTime, exQueued "b" 0 zeroTime]) "").2.2 = none
      ∧ (Remove exJsonB noFault emptyDisk
        (exQueue [exQueued "a" 0 zeroTime, exQueued "b" 0 zeroTime]) "").1.items
          = [exQueued "b" 0 zeroTime]
      ∧ (exQueued "b" 0 zeroTime).Item.ID = "" := by
  refine ⟨rfl, rfl, rfl⟩

/-- C14, amended: `Remove(id)` on a queue holding an item with that ID cuts out the
first such item and keeps every other item, a later item with the same ID included,
in its original relative order; what it returns is the result of saving the
shortened queue; so no item with that ID is left when only one item had it.  When no
item has that ID, `Remove` returns an error and leaves queue and disk unchanged. -/
theorem remove_first_match (J : JsonLib) (env : StoreEnv) (disk : Disk) (q : Queue)
    (itemID : String) :
    (∀ (pre post : List QueuedItem) (x : QueuedItem),
        q.items = pre ++ x :: post → x.Item.ID = itemID →
        (∀ y ∈ pre, y.Item.ID ≠ itemID) →
        (Remove J env disk q itemID).1 = { q with items := pre ++ post }
          ∧ (Remove J env disk q itemID).2
              = saveUnlocked J env disk { q with items := pre ++ post }
          ∧ ((∀ y ∈ post, y.Item.ID ≠ itemID) →
              ∀ y ∈ (Remove J env disk q itemID).1.items, y.Item.ID ≠ itemID))
      ∧ ((∀ y ∈ q.items, y.Item.ID ≠ itemID) →
          Remove J env disk q itemID
            = (q, disk, some ("item not found in queue: " ++ itemID))) := by
  constructor
  · intro pre post x hitems hx hpre
    have hrm : removeFirst itemID q.items = some (pre ++ post) := by
      rw [hitems]
      exact removeFirst_split itemID x post hx pre hpre
    have hres : Remove J env disk q itemID
        = ({ q with items := pre ++ post },
            (saveUnlocked J env disk { q with items := pre ++ post }).1,
            (saveUnlocked J env disk { q with items := pre ++ post }).2) := by
      unfold Remove
      rw [hrm]
    refine ⟨by rw [hres], by rw [hres], ?_⟩
    intro hpost y hy
    rw [hres] at hy
    simp only [List.mem_append] at hy
    rcases hy with hy | hy
    · exact hpre y hy
    · exact hpost y hy
  · intro hnone
    unfold Remove
    rw [removeFirst_none itemID q.items hnone]

theorem remove_first_match_witness :
    (exQueue [exQueued "a" 0 zeroTime, exQueued "b" 0 zeroTime]).items
        = [] ++ exQueued "a" 0 zeroTime :: [exQueued "b" 0 zeroTime]
      ∧ (exQueued "a" 0 zeroTime).Item.ID = ""
      ∧ (∀ y ∈ ([] : List QueuedItem), y.Item.ID ≠ "")
      ∧ (Remove exJsonB noFault emptyDisk
          (exQueue [exQueued "a" 0 zeroTime, exQueued "b" 0 zeroTime]) "").1
          = { exQueue [exQueued "a" 0 zeroTime, exQueued "b" 0 zeroTime] with
              items := [] ++ [exQueued "b" 0 zeroTime] } :=
  ⟨rfl, rfl, fun _ h => absurd h (List.not_mem_nil _),
    ((remove_first_match exJsonB noFault emptyDisk
        (exQueue [exQueued "a" 0 zeroTime, exQueued "b" 0 zeroTime]) "").1
      [] [exQueued "b" 0 zeroTime] (exQueued "a" 0 zeroTime) rfl rfl
      (fun _ h => absurd h (List.not_mem_nil _))).1⟩

/-- C15: `MarkAttempted(id)` on a queue holding an item with that ID adds 1 to the
Attempts of the first such item and sets its LastTry to the current time; its other
fields, every other item, the order and the queue path are unchanged.  When no item
has that ID it returns an error and leaves queue and disk unchanged. -/
theorem mark_attempted_effect (J : JsonLib) (env : StoreEnv) (now : Int) (disk : Disk)
    (q : Queue) (itemID : String) :
    (∀ (pre post : List QueuedItem) (x : QueuedItem),
        q.items = pre ++ x :: post → x.Item.ID = itemID →
        (∀ y ∈ pre, y.Item.ID ≠ itemID) →
        (MarkAttempted J env now disk q itemID).1
          = { filePath := q.filePath,
              items := pre ++ { Item := x.Item, Attempts := x.Attempts + 1,
                                QueuedAt := x.QueuedAt, LastTry := now } :: post })
      ∧ ((∀ y ∈ q.items, y.Item.ID ≠ itemID) →
          MarkAttempted J env now disk q itemID
            = (q, disk, some ("item not found in queue: " ++ itemID))) := by
  constructor
  · intro pre post x hitems hx hpre
    have hmk := markFirst_split now itemID x post hx pre hpre
    unfold MarkAttempted
    rw [hitems, hmk]
  · intro hnone
    unfold MarkAttempted
    rw [markFirst_none now itemID q.items hnone]

theorem mark_attempted_effect_witness :
    (exQueue [exQueued "b" 0 zeroTime]).items = [] ++ exQueued "b" 0 zeroTime :: []
      ∧ (exQueued "b" 0 zeroTime).Item.ID = ""
      ∧ (MarkAttempted exJsonB noFault 9 emptyDisk (exQueue [exQueued "b" 0 zeroTime]) "").1
          = { filePath := "queue.json",
              items := [] ++ { Item := exLocalItem "b", Attempts := 0 + 1, QueuedAt := 0,
                               LastTry := 9 } :: [] } :=
  ⟨rfl, rfl,
    (mark_attempted_effect exJsonB noFault 9 emptyDisk (exQueue [exQueued "b" 0 zeroTime])
      "").1 [] [] (exQueued "b" 0 zeroTime) rfl rfl
      (fun _ h => absurd h (List.not_mem_nil _))⟩

/-- Away from the smallest `int64`, where the negation `-maxAge` is exact,
`CleanupOld(maxAge)` leaves in the queue the items whose QueuedAt is later than
`now - maxAge`, in their original order and whatever their Attempts, and removes
every item queued at or before that cutoff. -/
theorem cleanup_keeps_recent (J : JsonLib) (env : StoreEnv) (now : Int) (disk : Disk)
    (q : Queue) (maxAge : Int) (hlo : -(2 ^ 63) < maxAge) (hhi : maxAge < 2 ^ 63) :
    (CleanupOld J env now disk q maxAge).1
      = { q with items := q.items.filter (fun item => decide (item.QueuedAt > now - maxAge)) } := by
  have hneg : wrap64 (-maxAge) = -maxAge := wrap64_of_range _ (by omega) (by omega)
  have hcut : now + wrap64 (-maxAge) = now - maxAge := by rw [hneg]; omega
  unfold CleanupOld
  simp only [hcut]
  split
  · rfl
  · next hlen =>
    have heq := not_not.mp hlen
    have hall := List.filter_length_eq_length.mp heq
    rw [List.filter_eq_self.mpr hall]

theorem cleanup_keeps_recent_witness :
    -(2 ^ 63) < (5 : Int) ∧ (5 : Int) < 2 ^ 63
      ∧ (CleanupOld exJsonB noFault 10 emptyDisk
          (exQueue [{ exQueued "a" 3 zeroTime with QueuedAt := 5 },
                    { exQueued "b" 0 zeroTime with QueuedAt := 6 }]) 5).1.items
          = [{ exQueued "b" 0 zeroTime with QueuedAt := 6 }] :=
  ⟨by decide, by decide,
    (congrArg Queue.items
      (cleanup_keeps_recent exJsonB noFault 10 emptyDisk
        (exQueue [{ exQueued "a" 3 zeroTime with QueuedAt := 5 },
                  { exQueued "b" 0 zeroTime with QueuedAt := 6 }]) 5
        (by decide) (by decide))).trans rfl⟩

/-- C16 fails in the code when `maxAge` is the smallest `int64`: the negation in
`time.Now().Add(-maxAge)` wraps to the same value, so the cutoff lies 2^63 ns before
the current time and not after it.  `CleanupOld` then keeps every item queued
between the two cutoffs and writes nothing, while none of these items is queued
later than `now - maxAge`: by the claim all of them are removed. -/
theorem cleanup_min_age_keeps_all (J : JsonLib) (env : StoreEnv) (now : Int) (disk : Disk)
    (q : Queue)
    (hq : ∀ x ∈ q.items, now - 2 ^ 63 < x.QueuedAt ∧ x.QueuedAt ≤ now + 2 ^ 63) :
    CleanupOld J env now disk q (-(2 ^ 63)) = (q, disk, none)
      ∧ q.items.filter (fun item => decide (item.QueuedAt > now - (-(2 ^ 63)))) = [] := by
  have hneg : wrap64 (-(-(2 ^ 63))) = -(2 ^ 63) := by decide
  constructor
  · unfold CleanupOld
    simp only [hneg]
    have hall : q.items.filter (fun item => decide (item.QueuedAt > now + -(2 ^ 63)))
        = q.items := by
      apply List.filter_eq_self.mpr
      intro x hx
      have := (hq x hx).1
      simp only [decide_eq_true_eq]
      omega
    simp only [hall, ne_eq, not_true_eq_false, if_false]
  · apply List.filter_eq_nil_iff.mpr
    intro x hx
    have := (hq x hx).2
    simp only [decide_eq_true_eq]
    omega

theorem cleanup_min_age_keeps_all_witness :
    (∀ x ∈ (exQueue [{ exQueued "a" 3 zeroTime with QueuedAt := 5 },
                     { exQueued "b" 0 zeroTime with QueuedAt := 6 }]).items,
        (10 : Int) - 2 ^ 63 < x.QueuedAt ∧ x.QueuedAt ≤ 10 + 2 ^ 63)
      ∧ (CleanupOld exJsonB noFault 10 emptyDisk
          (exQueue [{ exQueued "a" 3 zeroTime with QueuedAt := 5 },
                    { exQueued "b" 0 zeroTime with QueuedAt := 6 }]) (-(2 ^ 63))).1.items
          = [{ exQueued "a" 3 zeroTime with QueuedAt := 5 },
             { exQueued "b" 0 zeroTime with QueuedAt := 6 }]
      ∧ (exQueue [{ exQueued "a" 3 zeroTime with QueuedAt := 5 },
                  { exQueued "b" 0 zeroTime with QueuedAt := 6 }]).items.filter
            (fun item => decide (item.QueuedAt > 10 - (-(2 ^ 63)))) = [] :=
  have hq : ∀ x ∈ (exQueue [{ exQueued "a" 3 zeroTime with QueuedAt := 5 },
                            { exQueued "b" 0 zeroTime with QueuedAt := 6 }]).items,
      (10 : Int) - 2 ^ 63 < x.QueuedAt ∧ x.QueuedAt ≤ 10 + 2 ^ 63 := by
    intro x hx
    simp only [exQueue, List.mem_cons, List.mem_singleton, List.not_mem_nil, or_false] at hx
    rcases hx with hx | hx <;> subst hx <;> decide
  ⟨hq,
    (congrArg (fun r => r.1.items)
      (cleanup_min_age_keeps_all exJsonB noFault 10 emptyDisk
        (exQueue [{ exQueued "a" 3 zeroTime with QueuedAt := 5 },
                  { exQueued "b" 0 zeroTime with QueuedAt := 6 }]) hq).1).trans rfl,
    (cleanup_min_age_keeps_all exJsonB noFault 10 emptyDisk
        (exQueue [{ exQueued "a" 3 zeroTime with QueuedAt := 5 },
                  { exQueued "b" 0 zeroTime with QueuedAt := 6 }]) hq).2⟩

end sync

/-! ## Theorems: the echo suppressor -/

namespace clipboard

theorem lookup_some_mem (h : String) :
    ∀ (l : List (String × Int)) (ts : Int), l.lookup h = some ts → (h, ts) ∈ l := by
  intro l
  induction l with
  | nil => intro ts hl; simp [List.lookup] at hl
  | cons a rest ih =>
    intro ts hl
    obtain ⟨k, b⟩ := a
    by_cases hk : h = k
    · subst hk
      simp only [List.lookup, beq_self_eq_true, Option.some.injEq] at hl
      subst hl
      exact List.mem_cons_self _ _
    · have hbeq : (h == k) = false := by simpa using hk
      simp only [List.lookup, hbeq] at hl
      exact List.mem_cons_of_mem _ (ih ts hl)

theorem lookup_of_mem (h : String) :
    ∀ (l : List (String × Int)) (ts : Int), (h, ts) ∈ l → ∃ ts1, l.lookup h = some ts1 := by
  intro l
  induction l with
  | nil => intro ts hm; simp at hm
  | cons a rest ih =>
    intro ts hm
    obtain ⟨k, b⟩ := a
    by_cases hk : h = k
    · subst hk
      exact ⟨b, by simp [List.lookup]⟩
    · have hbeq : (h == k) = false := by simpa using hk
      simp only [List.mem_cons, Prod.mk.injEq] at hm
      rcases hm with ⟨h1, _⟩ | hm
      · exact absurd h1 hk
      · obtain ⟨ts1, h1⟩ := ih ts hm
        exact ⟨ts1, by simp only [List.lookup, hbeq, h1]⟩

/-- The entries of the table after one `MarkAsApplied`. -/
theorem mem_MarkAsApplied (m : DefaultMonitor) (now : Int) (k : String) (e : String × Int) :
    e ∈ (MarkAsApplied m now k).appliedHashes ↔
      (e = (k, now) ∨ (e ∈ m.appliedHashes ∧ e.1 ≠ k)) ∧ ¬ e.2 < now - fiveMinutes := by
  unfold MarkAsApplied
  simp [List.mem_filter, List.mem_cons]

/-- Marks of other hashes at times up to `now` keep an entry for `h` that is not
older than `since`, as long as `now` is within five minutes of `since`. -/
theorem markAll_keeps (h : String) (since now : Int) (hnow : now < since + fiveMinutes) :
    ∀ (later : List (Int × String)) (m : DefaultMonitor),
      (∀ e ∈ later, since ≤ e.1 ∧ e.1 ≤ now) →
      (∃ ts, (h, ts) ∈ m.appliedHashes) →
      (∀ e ∈ m.appliedHashes, e.1 = h → since ≤ e.2) →
      (∃ ts, (h, ts) ∈ (markAll m later).appliedHashes)
        ∧ (∀ e ∈ (markAll m later).appliedHashes, e.1 = h → since ≤ e.2) := by
  intro later
  induction later with
  | nil => intro m _ hex hall; exact ⟨hex, hall⟩
  | cons a rest ih =>
    intro m hlater hex hall
    obtain ⟨n, k⟩ := a
    have hn := hlater (n, k) (List.mem_cons_self _ _)
    simp only at hn
    simp only [markAll]
    apply ih
    · intro e he
      exact hlater e (List.mem_cons_of_mem _ he)
    · by_cases hk : k = h
      · refine ⟨n, ?_⟩
        rw [mem_MarkAsApplied]
        refine ⟨Or.inl (by rw [hk]), ?_⟩
        simp only [fiveMinutes]
        omega
      · obtain ⟨ts, hts⟩ := hex
        refine ⟨ts, ?_⟩
        rw [mem_MarkAsApplied]
        refine ⟨Or.inr ⟨hts, fun hh => hk hh.symm⟩, ?_⟩
        have := hall (h, ts) hts rfl
        simp only [fiveMinutes] at hnow ⊢
        simp only at this
        omega
    · intro e he heh
      rw [mem_MarkAsApplied] at he
      rcases he.1 with h1 | h1
      · rw [h1]
        exact hn.1
      · exact hall e h1.1 heh

/-- Marks of other hashes never change the time stamped on the entries of `h`,
and never add one. -/
theorem markAll_others (h : String) (P : Int → Prop) :
    ∀ (later : List (Int × String)) (m : DefaultMonitor),
      (∀ e ∈ later, e.2 ≠ h) →
      (∀ e ∈ m.appliedHashes, e.1 = h → P e.2) →
      ∀ e ∈ (markAll m later).appliedHashes, e.1 = h → P e.2 := by
  intro later
  induction later with
  | nil => intro m _ hall; exact hall
  | cons a rest ih =>
    intro m hlater hall
    obtain ⟨n, k⟩ := a
    have hk : k ≠ h := hlater (n, k) (List.mem_cons_self _ _)
    simp only [markAll]
    apply ih
    · intro e he
      exact hlater e (List.mem_cons_of_mem _ he)
    · intro e he heh
      rw [mem_MarkAsApplied] at he
      rcases he.1 with h1 | h1
      · rw [h1] at heh
        exact absurd heh hk
      · exact hall e h1.1 heh

/-- C17: after `MarkAsApplied(h)` at time t, and whatever other hashes are marked
afterwards (up to the time of the check), `isHashApplied(h)` at time t' is true
exactly when t' < t + 5 minutes: true throughout the window, false from
t + 5 minutes on.  A hash that was never marked on a new monitor is never reported
as applied. -/
theorem applied_window (m : DefaultMonitor) (t t1 : Int) (h : String)
    (later : List (Int × String))
    (hlater : ∀ e ∈ later, e.2 ≠ h ∧ t ≤ e.1 ∧ e.1 ≤ t1) :
    isHashApplied (markAll (MarkAsApplied m t h) later) t1 h = decide (t1 < t + fiveMinutes)
      ∧ (∀ (deviceID userID : String) (marks : List (Int × String)) (now : Int),
          (∀ e ∈ marks, e.2 ≠ h) →
          isHashApplied (markAll (NewDefaultMonitor deviceID userID) marks) now h = false) := by
  have hstamp : ∀ e ∈ (markAll (MarkAsApplied m t h) later).appliedHashes,
      e.1 = h → e.2 = t := by
    apply markAll_others h (fun ts => ts = t) later _ (fun e he => (hlater e he).1)
    intro e he heh
    rw [mem_MarkAsApplied] at he
    rcases he.1 with h1 | h1
    · rw [h1]
    · exact absurd heh h1.2
  constructor
  · unfold isHashApplied
    cases hl : (markAll (MarkAsApplied m t h) later).appliedHashes.lookup h with
    | none =>
      by_cases hwin : t1 < t + fiveMinutes
      · have hin : (h, t) ∈ (MarkAsApplied m t h).appliedHashes := by
          rw [mem_MarkAsApplied]
          refine ⟨Or.inl rfl, ?_⟩
          simp only [fiveMinutes]
          omega
        have hkeep := (markAll_keeps h t t1 hwin later (MarkAsApplied m t h)
          (fun e he => (hlater e he).2) ⟨t, hin⟩
          (fun e he heh => by
            rw [mem_MarkAsApplied] at he
            rcases he.1 with h1 | h1
            · rw [h1]
            · exact absurd heh h1.2)).1
        obtain ⟨ts, hts⟩ := hkeep
        obtain ⟨ts1, h1⟩ := lookup_of_mem h _ ts hts
        rw [hl] at h1
        exact absurd h1 (by simp)
      · simp [hwin]
    | some ts =>
      have hmem := lookup_some_mem h _ ts hl
      have hts : ts = t := hstamp (h, ts) hmem rfl
      subst hts
      simp only
      apply decide_eq_decide.mpr
      constructor <;> intro hh <;> omega
  · intro deviceID userID marks now hmarks
    have hnone : ∀ e ∈ (markAll (NewDefaultMonitor deviceID userID) marks).appliedHashes,
        e.1 = h → False := by
      apply markAll_others h (fun _ => False) marks _ hmarks
      intro e he
      simp [NewDefaultMonitor] at he
    unfold isHashApplied
    cases hl : (markAll (NewDefaultMonitor deviceID userID) marks).appliedHashes.lookup h with
    | none => rfl
    | some ts => exact absurd rfl (fun hh => hnone (h, ts) (lookup_some_mem h _ ts hl) hh)

theorem applied_window_witness :
    (∀ e ∈ [((1 : Int), "other")], e.2 ≠ "hash" ∧ (0 : Int) ≤ e.1 ∧ e.1 ≤ 2)
      ∧ isHashApplied (markAll (MarkAsApplied NewMonitor 0 "hash") [(1, "other")]) 2 "hash"
          = decide ((2 : Int) < 0 + fiveMinutes) :=
  have hl : ∀ e ∈ [((1 : Int), "other")], e.2 ≠ "hash" ∧ (0 : Int) ≤ e.1 ∧ e.1 ≤ 2 := by
    intro e he
    simp only [List.mem_singleton] at he
    subst he
    decide
  ⟨hl, (applied_window NewMonitor 0 2 "hash" [(1, "other")] hl).1⟩

/-- A check of the clipboard never touches the table of applied hashes. -/
theorem checkClipboardChange_appliedHashes (L : CryptoLib) (m : DefaultMonitor) (now : Int)
    (read : Except String String) :
    (checkClipboardChange L m now read).1.appliedHashes = m.appliedHashes := by
  unfold checkClipboardChange
  split
  · rfl
  · rfl
  · simp only []
    split <;> rfl

/-- A text written for a remote update at time 0 that `getClipboardText` returns
as it was written five minutes later is handed to the change callbacks: a suppressed
check does not record the hash in `lastHash`. -/
theorem applied_text_reported_after_window :
    (checkClipboardChange demoLib (WriteText demoLib (OnChange NewMonitor) okWrite "hello").1
        fiveMinutes (.ok "hello")).2
      = some (ProcessText demoLib (OnChange NewMonitor).processor fiveMinutes "hello") := by
  rfl

/-- After the monitor has written a text for a remote update at time T
(`WriteText`), every `checkClipboardChange` in which `getClipboardText` returns the
text as it was written (no white space was cut from it), at a time before
T + 5 minutes, hands nothing to the change callbacks and leaves the monitor as it
is, whatever was marked and checked in between. -/
theorem applied_text_suppressed_in_window (L : CryptoLib) (m m2 : DefaultMonitor)
    (w : WriteEnv) (text : String) (later : List (Int × String)) (now : Int)
    (hlater : ∀ e ∈ later, w.now ≤ e.1 ∧ e.1 ≤ now)
    (hm2 : m2.appliedHashes = (markAll (WriteText L m w text).1 later).appliedHashes)
    (hnow : now < w.now + fiveMinutes) :
    checkClipboardChange L m2 now (.ok text) = (m2, none) := by
  unfold checkClipboardChange GetCurrent
  by_cases htext : text = ""
  · simp [htext]
  · simp only [htext, if_false]
    have hin : (calculateHash L text "text", w.now)
        ∈ (WriteText L m w text).1.appliedHashes := by
      unfold WriteText
      simp only [ProcessText]
      rw [mem_MarkAsApplied]
      refine ⟨Or.inl rfl, ?_⟩
      simp only [fiveMinutes]
      omega
    have hall : ∀ e ∈ (WriteText L m w text).1.appliedHashes,
        e.1 = calculateHash L text "text" → w.now ≤ e.2 := by
      intro e he heh
      unfold WriteText at he
      simp only [ProcessText] at he
      rw [mem_MarkAsApplied] at he
      rcases he.1 with h1 | h1
      · rw [h1]
      · exact absurd heh h1.2
    obtain ⟨⟨ts, hts⟩, hge⟩ := markAll_keeps (calculateHash L text "text") w.now now hnow
      later _ hlater ⟨w.now, hin⟩ hall
    obtain ⟨ts1, hl⟩ := lookup_of_mem _ _ ts hts
    have hts1 := hge _ (lookup_some_mem _ _ ts1 hl) rfl
    simp only at hts1
    have happlied : isHashApplied m2 now (ProcessText L m2.processor now text).ContentHash
        = true := by
      unfold isHashApplied
      simp only [ProcessText, hm2, hl, decide_eq_true_eq]
      omega
    simp only [happlied, Bool.or_true, if_true]

theorem applied_text_suppressed_in_window_witness :
    (∀ e ∈ ([] : List (Int × String)), okWrite.now ≤ e.1 ∧ e.1 ≤ fiveMinutes - 1)
      ∧ fiveMinutes - 1 < okWrite.now + fiveMinutes
      ∧ checkClipboardChange demoLib (WriteText demoLib (OnChange NewMonitor) okWrite "hello").1
          (fiveMinutes - 1) (.ok "hello")
        = ((WriteText demoLib (OnChange NewMonitor) okWrite "hello").1, none) :=
  ⟨fun _ h => absurd h (List.not_mem_nil _), by decide,
    applied_text_suppressed_in_window demoLib (OnChange NewMonitor) _ okWrite "hello" []
      (fiveMinutes - 1) (fun _ h => absurd h (List.not_mem_nil _)) rfl (by decide)⟩

/-- C18 fails in the code for a text with white space around it: `WriteText` marks
the hash of the text as it is written, while `getClipboardText` returns the text of
the clipboard without that white space.  When the tool prints the written text
unchanged, the check at any later time, also within five minutes of the write,
finds a hash that was never marked, records it in `lastHash` and hands the trimmed
text to the change callbacks.  (The two hashes differ, as SHA-256 hashes of different
texts do; the trimmed text is not empty, and its hash is neither `lastHash` nor
marked before the write.) -/
theorem written_text_reported_when_trimmed (L : CryptoLib) (S : StringsLib)
    (m : DefaultMonitor) (w : WriteEnv) (now : Int) (text : String)
    (hascii : ∀ c ∈ text.data, c.toNat < 128)
    (hrest : trimAscii text ≠ "")
    (hhash : calculateHash L (trimAscii text) "text" ≠ calculateHash L text "text")
    (hlast : m.lastHash ≠ calculateHash L (trimAscii text) "text")
    (hnever : ∀ e ∈ m.appliedHashes, e.1 ≠ calculateHash L (trimAscii text) "text") :
    checkClipboardChange L (WriteText L m w text).1 now (getClipboardText S (.ok text))
      = ({ (WriteText L m w text).1 with
            lastHash := calculateHash L (trimAscii text) "text" },
          some (ProcessText L m.processor now (trimAscii text))) := by
  have hnot : isHashApplied (WriteText L m w text).1 now
      (calculateHash L (trimAscii text) "text") = false := by
    unfold isHashApplied
    cases hl : (WriteText L m w text).1.appliedHashes.lookup
        (calculateHash L (trimAscii text) "text") with
    | none => rfl
    | some ts =>
      have hmem := lookup_some_mem _ _ ts hl
      unfold WriteText at hmem
      simp only [ProcessText] at hmem
      rw [mem_MarkAsApplied] at hmem
      rcases hmem.1 with h1 | h1
      · exact absurd (congrArg Prod.fst h1) hhash
      · exact absurd rfl (hnever _ h1.1)
  have hlast2 : (WriteText L m w text).1.lastHash = m.lastHash := rfl
  have hproc : (WriteText L m w text).1.processor = m.processor := rfl
  unfold checkClipboardChange GetCurrent getClipboardText
  simp only [S.trimSpace_ascii text hascii, hrest, if_false]
  have hcur : (ProcessText L m.processor now (trimAscii text)).ContentHash
      = calculateHash L (trimAscii text) "text" := rfl
  have hne : ¬ calculateHash L (trimAscii text) "text" = m.lastHash := fun h => hlast h.symm
  simp only [hproc, hcur, hnot, hlast2, Bool.or_false, decide_eq_true_eq, hne, if_false]

theorem written_text_reported_when_trimmed_witness :
    (∀ c ∈ ("hello\n" : String).data, c.toNat < 128)
      ∧ trimAscii "hello\n" = "hello"
      ∧ calculateHash demoLib (trimAscii "hello\n") "text"
          ≠ calculateHash demoLib "hello\n" "text"
      ∧ (checkClipboardChange demoLib
            (WriteText demoLib (OnChange NewMonitor) okWrite "hello\n").1
            (okWrite.now + 500000000) (getClipboardText demoStrings (.ok "hello\n"))).2
          = some (ProcessText demoLib (OnChange NewMonitor).processor
              (okWrite.now + 500000000) "hello") :=
  ⟨by decide, by decide, by decide,
    (congrArg Prod.snd
      (written_text_reported_when_trimmed demoLib demoStrings (OnChange NewMonitor) okWrite
        (okWrite.now + 500000000) "hello\n" (by decide) (by decide) (by decide) (by decide)
        (fun _ h => absurd h (List.not_mem_nil _)))).trans rfl⟩

end clipboard

/-! ## Theorems: a poll batch, and nonces -/

namespace sync

/-- What `handleRemoteClipboardItem` returns for an item depends on the key, the
item and the platform's answer only, not on what was handled before. -/
theorem handleRemoteClipboardItem_err (L : CryptoLib) (sm1 sm2 : SyncManager)
    (w : clipboard.WriteEnv) (item : api.ClipboardItem)
    (h : sm1.apiClient.encryption = sm2.apiClient.encryption) :
    (handleRemoteClipboardItem L sm1 w item).2 = (handleRemoteClipboardItem L sm2 w item).2 := by
  have hdec : api.DecryptClipboardItem L sm1.apiClient item
      = api.DecryptClipboardItem L sm2.apiClient item := by
    unfold api.DecryptClipboardItem
    rw [h]
  unfold handleRemoteClipboardItem
  rw [hdec]
  cases api.DecryptClipboardItem L sm2.apiClient item with
  | error e => rfl
  | ok d =>
    simp only []
    unfold clipboard.SetClipboard
    by_cases ht : item.Type_ = "text"
    · simp only [ht, if_true, clipboard.WriteText]
      cases w.writeErr <;> rfl
    · simp only [ht, if_false]
      by_cases hi : item.Type_ = "image"
      · simp only [hi, if_true, clipboard.WriteImage]
        cases w.writeErr <;> rfl
      · simp only [hi, if_false]

theorem handleRemoteClipboardItem_itemsReceived (L : CryptoLib) (sm : SyncManager)
    (w : clipboard.WriteEnv) (item : api.ClipboardItem) :
    ((handleRemoteClipboardItem L sm w item).2 = none
        ∧ (handleRemoteClipboardItem L sm w item).1.itemsReceived = sm.itemsReceived + 1)
      ∨ ((∃ err, (handleRemoteClipboardItem L sm w item).2 = some err)
        ∧ (handleRemoteClipboardItem L sm w item).1.itemsReceived = sm.itemsReceived) := by
  unfold handleRemoteClipboardItem
  cases api.DecryptClipboardItem L sm.apiClient item with
  | error e => exact Or.inr ⟨⟨_, rfl⟩, rfl⟩
  | ok d =>
    simp only []
    generalize clipboard.SetClipboard L sm.clipboardMonitor w _ = r
    rcases r with ⟨m, _ | e⟩
    · exact Or.inl ⟨rfl, rfl⟩
    · exact Or.inr ⟨⟨_, rfl⟩, rfl⟩

theorem handleItems_itemsReceived (L : CryptoLib) (wenv : Nat → clipboard.WriteEnv)
    (items : List api.ClipboardItem) :
    ∀ (sm : SyncManager) (i : Nat),
      (handleItems L wenv sm i items).1.itemsReceived
        = sm.itemsReceived + (appliedItems (handleItems L wenv sm i items).2).length := by
  induction items with
  | nil => intro sm i; simp [handleItems, appliedItems]
  | cons item rest ih =>
    intro sm i
    simp only [handleItems]
    rw [ih]
    rcases handleRemoteClipboardItem_itemsReceived L sm (wenv i) item with ⟨h1, h2⟩ | ⟨⟨e, h1⟩, h2⟩
    · rw [h2]
      simp only [appliedItems, h1, Option.isNone_none, List.filter_cons_of_pos,
        List.map_cons, List.length_cons, List.length_map]
      push_cast
      omega
    · rw [h2]
      simp only [appliedItems, h1, List.length_map]
      rw [List.filter_cons_of_neg (by simp)]

theorem handleItems_err (L : CryptoLib) (wenv : Nat → clipboard.WriteEnv) (sm0 : SyncManager)
    (items : List api.ClipboardItem) :
    ∀ (sm : SyncManager) (i k : Nat) (entry : Handled),
      sm.apiClient.encryption = sm0.apiClient.encryption →
      (handleItems L wenv sm i items).2[k]? = some entry →
      entry.err = (handleRemoteClipboardItem L sm0 (wenv (i + k)) entry.item).2 := by
  induction items with
  | nil => intro sm i k entry _ hk; simp [handleItems] at hk
  | cons item rest ih =>
    intro sm i k entry henc hk
    simp only [handleItems] at hk
    cases k with
    | zero =>
      simp only [List.getElem?_cons_zero, Option.some.injEq] at hk
      subst hk
      exact handleRemoteClipboardItem_err L sm sm0 _ item henc
    | succ k =>
      simp only [List.getElem?_cons_succ] at hk
      have henc1 : (handleRemoteClipboardItem L sm (wenv i) item).1.apiClient.encryption
          = sm0.apiClient.encryption := by
        rw [handleRemoteClipboardItem_apiClient, henc]
      have := ih _ (i + 1) k entry henc1 hk
      have hidx : i + 1 + k = i + (k + 1) := by omega
      rw [this, hidx]

/-- C19: in `pollForUpdates` a failure to decrypt or to apply one item does not abort
the batch.  Every item of the response is handled, in response order; what is
returned for the item at place k is what `handleRemoteClipboardItem` returns for it
on its own, whatever happened to the items before it; and `itemsReceived` grows by
exactly the number of items that were applied. -/
theorem poll_batch_not_aborted (L : CryptoLib) (sm : SyncManager) (now : Int)
    (srv : api.PollRequest → Except String api.PollResponse)
    (wenv : Nat → clipboard.WriteEnv) (resp : api.PollResponse)
    (hresp : srv (api.pollRequest sm.apiClient) = .ok resp) :
    (pollForUpdates L sm now srv wenv).2.map (fun h => h.item) = resp.Items
      ∧ (∀ (k : Nat) (entry : Handled),
          (pollForUpdates L sm now srv wenv).2[k]? = some entry →
          entry.err = (handleRemoteClipboardItem L sm (wenv k) entry.item).2)
      ∧ (pollForUpdates L sm now srv wenv).1.itemsReceived
          = sm.itemsReceived + (appliedItems (pollForUpdates L sm now srv wenv).2).length := by
  rw [pollForUpdates_ok L sm now srv wenv resp hresp]
  refine ⟨handleItems_items L wenv resp.Items _ 0, ?_, ?_⟩
  · intro k entry hk
    have := (fun henc => handleItems_err L wenv sm resp.Items _ 0 k entry henc hk) rfl
    rw [this, Nat.zero_add]
  · rw [handleItems_itemsReceived]

theorem poll_batch_not_aborted_witness :
    (fun _ => Except.ok { Items := [exItem 1 "dev-other" "a", exBrokenItem 2,
                                    exItem 3 "dev-other" "c"], LastSeq := 3, Count := 3 }
        : api.PollRequest → Except String api.PollResponse) (api.pollRequest exManager.apiClient)
        = .ok { Items := [exItem 1 "dev-other" "a", exBrokenItem 2, exItem 3 "dev-other" "c"],
                LastSeq := 3, Count := 3 }
      ∧ (pollForUpdates demoLib exManager 0
          (fun _ => .ok { Items := [exItem 1 "dev-other" "a", exBrokenItem 2,
                                    exItem 3 "dev-other" "c"], LastSeq := 3, Count := 3 })
          (fun _ => okWrite)).2.map (fun h => h.err)
          = [none, some "failed to decrypt content: ciphertext too short", none]
      ∧ (pollForUpdates demoLib exManager 0
          (fun _ => .ok { Items := [exItem 1 "dev-other" "a", exBrokenItem 2,
                                    exItem 3 "dev-other" "c"], LastSeq := 3, Count := 3 })
          (fun _ => okWrite)).1.itemsReceived
          = exManager.itemsReceived + (appliedItems (pollForUpdates demoLib exManager 0
              (fun _ => .ok { Items := [exItem 1 "dev-other" "a", exBrokenItem 2,
                                        exItem 3 "dev-other" "c"], LastSeq := 3, Count := 3 })
              (fun _ => okWrite)).2).length :=
  ⟨rfl, rfl,
    (poll_batch_not_aborted demoLib exManager 0
      (fun _ => .ok { Items := [exItem 1 "dev-other" "a", exBrokenItem 2,
                                exItem 3 "dev-other" "c"], LastSeq := 3, Count := 3 })
      (fun _ => okWrite) _ rfl).2.2⟩

end sync

namespace encryption

theorem b64Encode_injective (L : CryptoLib) (a b : Bytes) (h : L.b64Encode a = L.b64Encode b) :
    a = b := by
  have ha := L.b64_roundtrip a
  rw [h, L.b64_roundtrip b] at ha
  exact (Option.some.inj ha).symm

/-- C20: for every non-empty plaintext `p` and every manager with a key set, two
`EncryptContent(p)` calls that draw different nonces both return an envelope, the two
Ciphertext strings differ, and `DecryptContent` returns `p` for both envelopes. -/
theorem distinct_nonces_distinct_ciphertexts (L : CryptoLib) (e : EncryptionManager)
    (rnd1 rnd2 : Bytes) (p : String) (hen : IsEnabled e = true) (hp : p ≠ "")
    (h1 : nonceSize ≤ rnd1.length) (h2 : nonceSize ≤ rnd2.length)
    (hne : rnd1.take nonceSize ≠ rnd2.take nonceSize) :
    ∃ env1 env2,
      EncryptContent L e rnd1 p = .ok env1 ∧ EncryptContent L e rnd2 p = .ok env2
        ∧ env1.Ciphertext ≠ env2.Ciphertext
        ∧ DecryptContent L e (some env1) = .ok p
        ∧ DecryptContent L e (some env2) = .ok p := by
  have hn1 := (readFull_ok rnd1 nonceSize h1).2
  have hn2 := (readFull_ok rnd2 nonceSize h2).2
  refine ⟨_, _, EncryptContent_enabled L e rnd1 p hen hp h1,
    EncryptContent_enabled L e rnd2 p hen hp h2, ?_,
    DecryptContent_sealed L e e.deviceKey _ p hen rfl hn1 hp,
    DecryptContent_sealed L e e.deviceKey _ p hen rfl hn2 hp⟩
  intro heq
  have hbytes := b64Encode_injective L _ _ heq
  have := (List.append_inj hbytes (by rw [hn1, hn2])).1
  exact hne this

theorem distinct_nonces_distinct_ciphertexts_witness :
    IsEnabled exEncryption = true ∧ ("hello" : String) ≠ ""
      ∧ nonceSize ≤ "0123456789ab".data.length ∧ nonceSize ≤ "ba9876543210".data.length
      ∧ "0123456789ab".data.take nonceSize ≠ "ba9876543210".data.take nonceSize
      ∧ ∃ env1 env2,
          EncryptContent demoLib exEncryption "0123456789ab".data "hello" = .ok env1
            ∧ EncryptContent demoLib exEncryption "ba9876543210".data "hello" = .ok env2
            ∧ env1.Ciphertext ≠ env2.Ciphertext
            ∧ DecryptContent demoLib exEncryption (some env1) = .ok "hello"
            ∧ DecryptContent demoLib exEncryption (some env2) = .ok "hello" :=
  ⟨by decide, by decide, by decide, by decide, by decide,
    distinct_nonces_distinct_ciphertexts demoLib exEncryption "0123456789ab".data
      "ba9876543210".data "hello" (by decide) (by decide) (by decide) (by decide) (by decide)⟩

end encryption

/-! ## Theorems: the contract of the encryption manager -/

namespace encryption

/-- C21: on a manager with no key set, `EncryptContent` returns for every plaintext,
the empty one included, the envelope with algorithm "none", IsEncrypted false and
the plaintext as Ciphertext, with no error, and `DecryptContent` of that envelope
returns the plaintext. -/
theorem unencrypted_passthrough (L : CryptoLib) (e : EncryptionManager) (rnd : Bytes)
    (plaintext : String) (hkey : IsEnabled e = false) :
    EncryptContent L e rnd plaintext
        = .ok { Algorithm := "none", Ciphertext := plaintext, IsEncrypted := false }
      ∧ DecryptContent L e
          (some { Algorithm := "none", Ciphertext := plaintext, IsEncrypted := false })
        = .ok plaintext := by
  constructor
  · unfold EncryptContent
    simp only [hkey, Bool.not_false, if_true]
  · unfold DecryptContent
    simp

theorem unencrypted_passthrough_witness :
    IsEnabled (NewEncryptionManager "test-device-123" "user-123") = false
      ∧ EncryptContent demoLib (NewEncryptionManager "test-device-123" "user-123") [] ""
          = .ok { Algorithm := "none", Ciphertext := "", IsEncrypted := false } :=
  ⟨by decide,
    (unencrypted_passthrough demoLib (NewEncryptionManager "test-device-123" "user-123") [] ""
      (by decide)).1⟩

/-- C22: on a manager with a key set, `EncryptContent` of the empty string returns
an error and no envelope. -/
theorem empty_plaintext_rejected (L : CryptoLib) (e : EncryptionManager) (rnd : Bytes)
    (hkey : IsEnabled e = true) :
    EncryptContent L e rnd "" = .error "plaintext cannot be empty" := by
  unfold EncryptContent
  simp only [hkey, Bool.not_true, Bool.false_eq_true, if_false, if_true]

theorem empty_plaintext_rejected_witness :
    IsEnabled exEncryption = true
      ∧ EncryptContent demoLib exEncryption "0123456789ab".data ""
          = .error "plaintext cannot be empty" :=
  ⟨by decide, empty_plaintext_rejected demoLib exEncryption "0123456789ab".data (by decide)⟩

/-- C23: for every envelope with IsEncrypted false or algorithm "none",
`DecryptContent` returns the Ciphertext field unchanged with no error, whatever the
manager; for an envelope with IsEncrypted true and any other algorithm,
`DecryptContent` on a manager with no key returns an error. -/
theorem decrypt_passthrough_or_uninitialized (L : CryptoLib) (e : EncryptionManager)
    (enc : EncryptedContent) :
    ((enc.IsEncrypted = false ∨ enc.Algorithm = "none") →
        DecryptContent L e (some enc) = .ok enc.Ciphertext)
      ∧ (enc.IsEncrypted = true → enc.Algorithm ≠ "none" → IsEnabled e = false →
        DecryptContent L e (some enc)
          = .error "encryption manager not initialized with device key") := by
  constructor
  · intro h
    unfold DecryptContent
    rcases h with h | h
    · simp [h]
    · simp [h]
  · intro h1 h2 h3
    unfold DecryptContent
    simp [h1, h2, h3]

theorem decrypt_passthrough_or_uninitialized_witness :
    ((⟨"AES-256-GCM", "text", false⟩ : EncryptedContent).IsEncrypted = false
        ∨ (⟨"AES-256-GCM", "text", false⟩ : EncryptedContent).Algorithm = "none")
      ∧ DecryptContent demoLib exEncryption (some ⟨"AES-256-GCM", "text", false⟩) = .ok "text" :=
  ⟨Or.inl rfl,
    (decrypt_passthrough_or_uninitialized demoLib exEncryption ⟨"AES-256-GCM", "text", false⟩).1
      (Or.inl rfl)⟩

/-- C24: `SetupDeviceKey` returns an error exactly when the passphrase is empty; on
success the manager is enabled and holds a device key of exactly 32 bytes; on
failure the manager, its device key and enabled flag included, is unchanged. -/
theorem setup_device_key_contract (L : CryptoLib) (e : EncryptionManager) (pass : String) :
    ((SetupDeviceKey L e pass).2 ≠ none ↔ pass = "")
      ∧ ((SetupDeviceKey L e pass).2 = none →
          IsEnabled (SetupDeviceKey L e pass).1 = true
            ∧ (SetupDeviceKey L e pass).1.deviceKey.length = 32)
      ∧ ((SetupDeviceKey L e pass).2 ≠ none → (SetupDeviceKey L e pass).1 = e) := by
  unfold SetupDeviceKey
  by_cases hp : pass = ""
  · simp [hp]
  · have hlen := deriveKey_length L e.userID pass
    simp only [keySize] at hlen
    simp [hp, IsEnabled, keySize, hlen]

theorem setup_device_key_contract_witness :
    (SetupDeviceKey demoLib (NewEncryptionManager "test-device-123" "user-123")
        "test-passphrase-123").2 = none
      ∧ IsEnabled (SetupDeviceKey demoLib (NewEncryptionManager "test-device-123" "user-123")
          "test-passphrase-123").1 = true :=
  ⟨rfl,
    ((setup_device_key_contract demoLib (NewEncryptionManager "test-device-123" "user-123")
      "test-passphrase-123").2.1 rfl).1⟩

theorem zip_all_eq_iff :
    ∀ a b : Bytes, a.length = b.length →
      ((List.zip a b).all (fun p => decide (p.1 = p.2)) = true ↔ a = b) := by
  intro a
  induction a with
  | nil =>
    intro b hlen
    cases b with
    | nil => simp
    | cons y ys => simp at hlen
  | cons x xs ih =>
    intro b hlen
    cases b with
    | nil => simp at hlen
    | cons y ys =>
      have hl : xs.length = ys.length := by simpa using hlen
      have := ih ys hl
      simp only [List.zip_cons_cons, List.all_cons, Bool.and_eq_true, decide_eq_true_eq,
        List.cons.injEq]
      rw [this]

/-- C25: on a manager with a key set, `ValidatePassphrase(c)` is true exactly when
the key derived from c and the userID equals the device key byte for byte; so it is
true for the passphrase with which `SetupDeviceKey` last succeeded; on a manager
with no key it is false for every candidate. -/
theorem validate_passphrase_contract (L : CryptoLib) (e : EncryptionManager) (c : String) :
    (IsEnabled e = true → (ValidatePassphrase L e c = true ↔ deriveKey L e.userID c = e.deviceKey))
      ∧ (∀ e0, SetupDeviceKey L e0 c = (e, none) → ValidatePassphrase L e c = true)
      ∧ (IsEnabled e = false → ValidatePassphrase L e c = false) := by
  have hen : IsEnabled e = true →
      (ValidatePassphrase L e c = true ↔ deriveKey L e.userID c = e.deviceKey) := by
    intro h
    have hk := ((IsEnabled_iff e).mp h).2
    have hlen : (deriveKey L e.userID c).length = e.deviceKey.length := by
      rw [deriveKey_length, hk, keySize]
    unfold ValidatePassphrase
    simp only [h, Bool.not_true, Bool.false_eq_true, if_false, ne_eq, hlen, not_true_eq_false]
    exact zip_all_eq_iff _ _ hlen
  refine ⟨hen, ?_, ?_⟩
  · intro e0 hsetup
    have h := IsEnabled_of_setup L e0 e c hsetup
    obtain ⟨_, rfl⟩ := SetupDeviceKey_ok L e0 e c hsetup
    exact (hen h).mpr rfl
  · intro h
    unfold ValidatePassphrase
    simp [h]

theorem validate_passphrase_contract_witness :
    IsEnabled exEncryption = true
      ∧ ValidatePassphrase demoLib exEncryption "x" = true
      ∧ ValidatePassphrase demoLib exEncryption "wrong-passphrase" = false :=
  ⟨by decide,
    ((validate_passphrase_contract demoLib exEncryption "x").1 (by decide)).mpr (by decide),
    by decide⟩

end encryption

namespace api

/-- C26: `GenerateContentHash` of an envelope is the hex form of the SHA-256 of the
bytes of its Ciphertext string, so it is the same for envelopes with the same
Ciphertext, whatever their other fields and whatever the manager; and every request
that `SyncClipboardItem` posts carries as ContentHash this hash of its Content, and
as SizeBytes the byte length of its Content. -/
theorem content_hash_of_transmitted (L : CryptoLib) :
    (∀ enc : encryption.EncryptedContent,
        encryption.GenerateContentHash L (some enc)
          = L.hexEncode (L.sha256Sum enc.Ciphertext.data))
      ∧ (∀ enc1 enc2 : encryption.EncryptedContent, enc1.Ciphertext = enc2.Ciphertext →
          encryption.GenerateContentHash L (some enc1)
            = encryption.GenerateContentHash L (some enc2))
      ∧ (∀ (c : APIClient) (rnd : Bytes) (content contentType : String)
          (metadata : List (String × String)) (req : SyncRequest),
          syncRequestOf L c rnd content contentType metadata = .ok req →
          req.ContentHash = L.hexEncode (L.sha256Sum req.Content.data)
            ∧ req.SizeBytes = req.Content.length) := by
  refine ⟨fun _ => rfl, ?_, ?_⟩
  · intro enc1 enc2 h
    simp only [encryption.GenerateContentHash, h]
  · intro c rnd content contentType metadata req h
    unfold syncRequestOf at h
    cases henc : encryption.EncryptContent L c.encryption rnd content with
    | error err => rw [henc] at h; simp at h
    | ok enc =>
      rw [henc] at h
      simp only [Except.ok.injEq] at h
      subst h
      exact ⟨rfl, rfl⟩

theorem content_hash_of_transmitted_witness :
    ∃ req, syncRequestOf demoLib exManager.apiClient "0123456789ab".data "hello"
          "text/plain" [] = .ok req
      ∧ req.ContentHash = demoLib.hexEncode (demoLib.sha256Sum req.Content.data)
      ∧ req.SizeBytes = req.Content.length :=
  ⟨_, rfl,
    (content_hash_of_transmitted demoLib).2.2 exManager.apiClient "0123456789ab".data "hello"
      "text/plain" [] _ rfl⟩

end api

/-! ## Theorems: change detection -/

namespace clipboard

/-- C27: `checkClipboardChange` hands the current item to the registered callbacks
exactly when the clipboard was read, is not empty, and the hash of its content
differs from `lastHash` and is not inside the echo-suppression window; in that case
it sets `lastHash` to that hash, and in every other case (read error, empty
clipboard, unchanged hash, suppressed hash) it leaves the monitor, `lastHash`
included, as it was. -/
theorem check_reports_iff (L : CryptoLib) (m : DefaultMonitor) (now : Int)
    (read : Except String String) :
    ((checkClipboardChange L m now read).2.isSome = true ↔
        ∃ text, read = .ok text ∧ text ≠ ""
          ∧ calculateHash L text "text" ≠ m.lastHash
          ∧ isHashApplied m now (calculateHash L text "text") = false)
      ∧ (∀ text, read = .ok text → text ≠ "" →
          calculateHash L text "text" ≠ m.lastHash →
          isHashApplied m now (calculateHash L text "text") = false →
          checkClipboardChange L m now read
            = ({ m with lastHash := calculateHash L text "text" },
                some (ProcessText L m.processor now text)))
      ∧ ((checkClipboardChange L m now read).2 = none →
          (checkClipboardChange L m now read).1 = m) := by
  cases read with
  | error err =>
    refine ⟨?_, ?_, ?_⟩
    · simp [checkClipboardChange, GetCurrent]
    · intro text h; simp at h
    · intro _; rfl
  | ok text =>
    by_cases htext : text = ""
    · refine ⟨?_, ?_, ?_⟩
      · simp [checkClipboardChange, GetCurrent, htext]
      · intro t h hne
        simp only [Except.ok.injEq] at h
        exact absurd (h ▸ htext) hne
      · intro _
        simp [checkClipboardChange, GetCurrent, htext]
    · by_cases hlast : calculateHash L text "text" = m.lastHash
      · have hres : checkClipboardChange L m now (.ok text) = (m, none) := by
          simp [checkClipboardChange, GetCurrent, htext, ProcessText, hlast]
        refine ⟨?_, ?_, ?_⟩
        · rw [hres]
          simp only [Option.isSome_none, Bool.false_eq_true, false_iff, not_exists, not_and]
          intro t ht _ hne
          simp only [Except.ok.injEq] at ht
          subst ht
          exact absurd hlast hne
        · intro t ht _ hne
          simp only [Except.ok.injEq] at ht
          subst ht
          exact absurd hlast hne
        · intro _; rw [hres]
      · cases happ : isHashApplied m now (calculateHash L text "text") with
        | true =>
          have hres : checkClipboardChange L m now (.ok text) = (m, none) := by
            simp [checkClipboardChange, GetCurrent, htext, ProcessText, happ]
          refine ⟨?_, ?_, ?_⟩
          · rw [hres]
            simp only [Option.isSome_none, Bool.false_eq_true, false_iff, not_exists, not_and]
            intro t ht _ _ hfalse
            simp only [Except.ok.injEq] at ht
            subst ht
            rw [happ] at hfalse
            exact absurd hfalse (by decide)
          · intro t ht _ _ hfalse
            simp only [Except.ok.injEq] at ht
            subst ht
            rw [happ] at hfalse
            exact absurd hfalse (by decide)
          · intro _; rw [hres]
        | false =>
          have hres : checkClipboardChange L m now (.ok text)
              = ({ m with lastHash := calculateHash L text "text" },
                  some (ProcessText L m.processor now text)) := by
            simp [checkClipboardChange, GetCurrent, htext, ProcessText, happ, hlast]
          refine ⟨?_, ?_, ?_⟩
          · rw [hres]
            simp only [Option.isSome_some, true_iff]
            exact ⟨text, rfl, htext, hlast, happ⟩
          · intro t ht _ _ _
            simp only [Except.ok.injEq] at ht
            subst ht
            exact hres
          · intro hnone
            rw [hres] at hnone
            simp at hnone

theorem check_reports_iff_witness :
    (Except.ok "copied" : Except String String) = .ok "copied" ∧ ("copied" : String) ≠ ""
      ∧ calculateHash demoLib "copied" "text" ≠ (OnChange NewMonitor).lastHash
      ∧ isHashApplied (OnChange NewMonitor) 0 (calculateHash demoLib "copied" "text") = false
      ∧ checkClipboardChange demoLib (OnChange NewMonitor) 0 (.ok "copied")
          = ({ OnChange NewMonitor with lastHash := calculateHash demoLib "copied" "text" },
              some (ProcessText demoLib (OnChange NewMonitor).processor 0 "copied")) :=
  ⟨rfl, by decide, by decide, by decide,
    (check_reports_iff demoLib (OnChange NewMonitor) 0 (.ok "copied")).2.1 "copied" rfl
      (by decide) (by decide) (by decide)⟩

end clipboard

/-! ## Theorems: the router of the proxy service -/

namespace proxy

/-- In a list sorted by falling priority, the first rule that passes a test has the
highest priority among the rules that pass it. -/
theorem find_first_highest (p : RoutingRule → Bool) :
    ∀ (l : List RoutingRule) (rule : RoutingRule),
      l.Pairwise (fun a b => a.Priority ≥ b.Priority) →
      l.find? p = some rule →
      rule ∈ l ∧ p rule = true ∧ ∀ other ∈ l, p other = true → other.Priority ≤ rule.Priority := by
  intro l
  induction l with
  | nil => intro rule _ h; simp at h
  | cons a t ih =>
    intro rule hsorted hfind
    rw [List.pairwise_cons] at hsorted
    by_cases hpa : p a = true
    · rw [List.find?_cons_of_pos _ hpa] at hfind
      have hr : a = rule := Option.some.inj hfind
      subst hr
      refine ⟨List.mem_cons_self _ _, hpa, ?_⟩
      intro other hother _
      rcases List.mem_cons.mp hother with h | h
      · rw [h]
      · exact hsorted.1 other h
    · rw [List.find?_cons_of_neg _ hpa] at hfind
      obtain ⟨h1, h2, h3⟩ := ih rule hsorted.2 hfind
      refine ⟨List.mem_cons_of_mem _ h1, h2, ?_⟩
      intro other hother hp
      rcases List.mem_cons.mp hother with h | h
      · rw [h] at hp
        exact absurd hp hpa
      · exact h3 other h hp

/-- The action and the matched rule of a decision are those of the rule found. -/
theorem RouteDomain_matched (r : TrafficRouter) (domain : String) (rule : RoutingRule)
    (h : r.rules.find? (fun x => matchesDomain domain x.Domain) = some rule) :
    (RouteDomain r domain).2.Action = rule.Action
      ∧ (RouteDomain r domain).2.MatchedRule = some rule := by
  have hfind : findMatchingRule
      (updateDomainStats
        { r with stats := { r.stats with TotalRequests := r.stats.TotalRequests + 1 } } domain)
      domain = some rule := h
  unfold RouteDomain
  simp only [hfind]
  split
  · exact ⟨rfl, rfl⟩
  · split
    · split
      · exact ⟨rfl, rfl⟩
      · split
        · split
          · exact ⟨rfl, rfl⟩
          · exact ⟨rfl, rfl⟩
        · exact ⟨rfl, rfl⟩
    · split
      · exact ⟨rfl, rfl⟩
      · exact ⟨rfl, rfl⟩

theorem RouteDomain_unmatched (r : TrafficRouter) (domain : String)
    (h : r.rules.find? (fun x => matchesDomain domain x.Domain) = none) :
    (RouteDomain r domain).2.Action = "DIRECT"
      ∧ (RouteDomain r domain).2.MatchedRule = none := by
  have hfind : findMatchingRule
      (updateDomainStats
        { r with stats := { r.stats with TotalRequests := r.stats.TotalRequests + 1 } } domain)
      domain = none := h
  unfold RouteDomain
  simp [hfind]

/-- C28: for every rule set and domain, on the router built from the rule set
(`NewTrafficRouter`, and likewise after `UpdateRules`), when some rule matches the
domain `RouteDomain` returns the action of a rule of the set that matches the domain
and whose priority is at least that of every matching rule, and names that rule as
matched; when no rule matches it returns action "DIRECT" with no matched rule. -/
theorem route_highest_priority_match (S : SortLib) (r0 : TrafficRouter)
    (rules : List RoutingRule) (workers : WorkerConfig) (domain : String) :
    ∀ r, (r = NewTrafficRouter S rules workers ∨ r = UpdateRules S r0 rules workers) →
      ((∃ rule ∈ rules, matchesDomain domain rule.Domain = true) →
          ∃ rule ∈ rules, matchesDomain domain rule.Domain = true
            ∧ (RouteDomain r domain).2.Action = rule.Action
            ∧ (RouteDomain r domain).2.MatchedRule = some rule
            ∧ ∀ other ∈ rules, matchesDomain domain other.Domain = true →
                other.Priority ≤ rule.Priority)
        ∧ ((∀ rule ∈ rules, matchesDomain domain rule.Domain = false) →
          (RouteDomain r domain).2.Action = "DIRECT"
            ∧ (RouteDomain r domain).2.MatchedRule = none) := by
  intro r hr
  have hrules : r.rules = S.sortRules rules := by
    rcases hr with h | h <;> rw [h] <;> rfl
  have hperm := S.perm rules
  have hsorted := S.sorted rules
  constructor
  · rintro ⟨rule, hmem, hmatch⟩
    cases hfind : r.rules.find? (fun x => matchesDomain domain x.Domain) with
    | none =>
      rw [List.find?_eq_none] at hfind
      have := hfind rule (by rw [hrules]; exact hperm.mem_iff.mpr hmem)
      simp [hmatch] at this
    | some found =>
      have hf := hfind
      rw [hrules] at hf
      obtain ⟨h1, h2, h3⟩ := find_first_highest _ _ found hsorted hf
      obtain ⟨ha, hm⟩ := RouteDomain_matched r domain found hfind
      refine ⟨found, hperm.mem_iff.mp h1, h2, ha, hm, ?_⟩
      intro other hother hp
      exact h3 other (hperm.mem_iff.mpr hother) hp
  · intro hnone
    apply RouteDomain_unmatched
    rw [List.find?_eq_none]
    intro x hx
    rw [hrules] at hx
    have := hnone x (hperm.mem_iff.mp hx)
    simp [this]

theorem route_highest_priority_match_witness :
    (∃ rule ∈ [exRule "*.example.com" "PROXY" 100, exRule "example.com" "BLOCK" 200],
        matchesDomain "www.example.com" rule.Domain = true)
      ∧ (RouteDomain (NewTrafficRouter demoSort
            [exRule "*.example.com" "PROXY" 100, exRule "example.com" "BLOCK" 200] exWorkers)
          "www.example.com").2.Action = "BLOCK"
      ∧ ∃ rule ∈ [exRule "*.example.com" "PROXY" 100, exRule "example.com" "BLOCK" 200],
          matchesDomain "www.example.com" rule.Domain = true
            ∧ (RouteDomain (NewTrafficRouter demoSort
                  [exRule "*.example.com" "PROXY" 100, exRule "example.com" "BLOCK" 200]
                  exWorkers) "www.example.com").2.Action = rule.Action
            ∧ (RouteDomain (NewTrafficRouter demoSort
                  [exRule "*.example.com" "PROXY" 100, exRule "example.com" "BLOCK" 200]
                  exWorkers) "www.example.com").2.MatchedRule = some rule
            ∧ ∀ other ∈ [exRule "*.example.com" "PROXY" 100, exRule "example.com" "BLOCK" 200],
                matchesDomain "www.example.com" other.Domain = true →
                other.Priority ≤ rule.Priority :=
  have hex : ∃ rule ∈ [exRule "*.example.com" "PROXY" 100, exRule "example.com" "BLOCK" 200],
      matchesDomain "www.example.com" rule.Domain = true :=
    ⟨exRule "*.example.com" "PROXY" 100, List.mem_cons_self _ _, by decide⟩
  ⟨hex, by decide,
    (route_highest_priority_match demoSort
      (NewTrafficRouter demoSort [] exWorkers)
      [exRule "*.example.com" "PROXY" 100, exRule "example.com" "BLOCK" 200] exWorkers
      "www.example.com" _ (Or.inl rfl)).1 hex⟩

end proxy

/-! ## Theorems: a missing server item, and the setup check -/

namespace sync

/-- With a server item present and a configuration loaded, `SendItem` returns nil. -/
theorem SendItem_with_data (sc : SyncClient) (cfg : config.AgentConfig)
    (create : config.ClipboardItem → Except String (Option config.ClipboardItem)) (now : Int)
    (item serverItem : config.ClipboardItem)
    (hcfg : sc.config = some cfg) (htok : cfg.AccessToken ≠ "")
    (hcreate : create item = .ok (some serverItem)) :
    (SendItem sc create now item).2 = .ok := by
  unfold SendItem
  rw [hcfg]
  simp only [htok, if_false, hcreate]
  split <;> rfl

/-- C29: `SendItem` does dereference a missing server item.  A 200 response whose
data field is null is accepted by `CreateItem`, which returns a nil item and a nil
error, and `SendItem` then reads `serverItem.Seq` and ends in a nil-pointer panic. -/
theorem send_item_nil_data_panics :
    CreateItem exNullData = .ok none
      ∧ SendItem exSyncClient (fun _ => CreateItem exNullData) 0 (exLocalItem "hello")
          = (exSyncClient, .panicked) := by
  constructor
  · rfl
  · rfl

end sync

namespace setup

/-- C30: `IsSetupRequired` returns true for every config path, file content and
environment: each of its branches returns true, the last one because the encryption
manager it builds with `NewEncryptionManager` is not enabled, as is every manager
that has not run `SetupDeviceKey`. -/
theorem is_setup_required_always :
    (∀ env : SetupEnv, IsSetupRequired env = true)
      ∧ (∀ deviceID userID : String,
          encryption.IsEnabled (encryption.NewEncryptionManager deviceID userID) = false) := by
  have hnew : ∀ deviceID userID : String,
      encryption.IsEnabled (encryption.NewEncryptionManager deviceID userID) = false := by
    intro deviceID userID
    simp [encryption.IsEnabled, encryption.NewEncryptionManager]
  refine ⟨?_, hnew⟩
  intro env
  unfold IsSetupRequired
  by_cases h1 : env.configExists = true
  · simp only [h1, Bool.not_true, Bool.false_eq_true, if_false]
    split
    · rfl
    · cases env.deviceInfo with
      | error err => rfl
      | ok info => simp only [hnew, Bool.not_false, if_true]
  · simp [h1]

end setup

end ClipboardAgent
